import Mathlib

/-!
Verification model of the itemservicecentral item storage and query engine.

The Go source is shallowly embedded:

* JSON documents (`map[string]interface{}` after `json.Unmarshal`) are the
  inductive type `Json`; an object / document is an association list
  `List (String × Json)`.  Go maps are unordered with unique keys, so all
  document-level statements are phrased through `getField` (key lookup);
  list order is an artifact of the embedding.
* PostgreSQL tables are snapshots `List Row` where a `Row` carries the
  physical `pk` and `rk` columns and the `data` JSONB payload (an SQL NULL
  range key is represented as `""`, exactly as `queryItems` in
  internal/database/store.go reads a NULL `rk` into the empty string).
* SQL `SELECT ... WHERE ... ORDER BY ... LIMIT` is interpreted as
  filter / sort / take over the snapshot.  Text comparison models the C
  collation (bytewise, which for UTF-8 agrees with codepoint order).
* Transactions (migrate) are modelled by state passing: the committed
  state of a run is the transaction state on success and the original
  state on error or rollback.
-/

set_option maxHeartbeats 1000000

/-- JSON value as produced by json.Unmarshal into interface-typed Go values:
null, bool, number, string, array, object.  Numbers are kept opaque as
integers; no modelled operation inspects numeric payloads. -/
inductive Json where
  | null : Json
  | bool (b : Bool) : Json
  | num (n : Int) : Json
  | str (s : String) : Json
  | arr (xs : List Json) : Json
  | obj (kvs : List (String × Json)) : Json

/-- A document: the contents of a Go map[string]interface-value. -/
abbrev Doc := List (String × Json)

mutual

/-- Decidable equality for `Json` (hand written: the nested inductive is not
handled by deriving in this toolchain). -/
def jsonDecEq : (a b : Json) → Decidable (a = b)
  | .null, .null => isTrue rfl
  | .null, .bool _ => isFalse (by intro h; exact Json.noConfusion h)
  | .null, .num _ => isFalse (by intro h; exact Json.noConfusion h)
  | .null, .str _ => isFalse (by intro h; exact Json.noConfusion h)
  | .null, .arr _ => isFalse (by intro h; exact Json.noConfusion h)
  | .null, .obj _ => isFalse (by intro h; exact Json.noConfusion h)
  | .bool _, .null => isFalse (by intro h; exact Json.noConfusion h)
  | .bool a, .bool b =>
    match decEq a b with
    | isTrue h => isTrue (by rw [h])
    | isFalse h => isFalse (by intro hh; injection hh; contradiction)
  | .bool _, .num _ => isFalse (by intro h; exact Json.noConfusion h)
  | .bool _, .str _ => isFalse (by intro h; exact Json.noConfusion h)
  | .bool _, .arr _ => isFalse (by intro h; exact Json.noConfusion h)
  | .bool _, .obj _ => isFalse (by intro h; exact Json.noConfusion h)
  | .num _, .null => isFalse (by intro h; exact Json.noConfusion h)
  | .num _, .bool _ => isFalse (by intro h; exact Json.noConfusion h)
  | .num a, .num b =>
    match decEq a b with
    | isTrue h => isTrue (by rw [h])
    | isFalse h => isFalse (by intro hh; injection hh; contradiction)
  | .num _, .str _ => isFalse (by intro h; exact Json.noConfusion h)
  | .num _, .arr _ => isFalse (by intro h; exact Json.noConfusion h)
  | .num _, .obj _ => isFalse (by intro h; exact Json.noConfusion h)
  | .str _, .null => isFalse (by intro h; exact Json.noConfusion h)
  | .str _, .bool _ => isFalse (by intro h; exact Json.noConfusion h)
  | .str _, .num _ => isFalse (by intro h; exact Json.noConfusion h)
  | .str a, .str b =>
    match decEq a b with
    | isTrue h => isTrue (by rw [h])
    | isFalse h => isFalse (by intro hh; injection hh; contradiction)
  | .str _, .arr _ => isFalse (by intro h; exact Json.noConfusion h)
  | .str _, .obj _ => isFalse (by intro h; exact Json.noConfusion h)
  | .arr _, .null => isFalse (by intro h; exact Json.noConfusion h)
  | .arr _, .bool _ => isFalse (by intro h; exact Json.noConfusion h)
  | .arr _, .num _ => isFalse (by intro h; exact Json.noConfusion h)
  | .arr _, .str _ => isFalse (by intro h; exact Json.noConfusion h)
  | .arr a, .arr b =>
    match jsonListDecEq a b with
    | isTrue h => isTrue (by rw [h])
    | isFalse h => isFalse (by intro hh; injection hh; contradiction)
  | .arr _, .obj _ => isFalse (by intro h; exact Json.noConfusion h)
  | .obj _, .null => isFalse (by intro h; exact Json.noConfusion h)
  | .obj _, .bool _ => isFalse (by intro h; exact Json.noConfusion h)
  | .obj _, .num _ => isFalse (by intro h; exact Json.noConfusion h)
  | .obj _, .str _ => isFalse (by intro h; exact Json.noConfusion h)
  | .obj _, .arr _ => isFalse (by intro h; exact Json.noConfusion h)
  | .obj a, .obj b =>
    match jsonObjDecEq a b with
    | isTrue h => isTrue (by rw [h])
    | isFalse h => isFalse (by intro hh; injection hh; contradiction)

/-- Decidable equality for lists of `Json`. -/
def jsonListDecEq : (a b : List Json) → Decidable (a = b)
  | [], [] => isTrue rfl
  | [], _ :: _ => isFalse (by intro h; exact List.noConfusion h)
  | _ :: _, [] => isFalse (by intro h; exact List.noConfusion h)
  | a :: as, b :: bs =>
    match jsonDecEq a b with
    | isTrue h1 =>
      match jsonListDecEq as bs with
      | isTrue h2 => isTrue (by rw [h1, h2])
      | isFalse h2 => isFalse (by intro hh; injection hh; contradiction)
    | isFalse h1 => isFalse (by intro hh; injection hh; contradiction)

/-- Decidable equality for key/value pair lists of `Json`. -/
def jsonObjDecEq : (a b : List (String × Json)) → Decidable (a = b)
  | [], [] => isTrue rfl
  | [], _ :: _ => isFalse (by intro h; exact List.noConfusion h)
  | _ :: _, [] => isFalse (by intro h; exact List.noConfusion h)
  | (ka, va) :: as, (kb, vb) :: bs =>
    match decEq ka kb with
    | isTrue hk =>
      match jsonDecEq va vb with
      | isTrue hv =>
        match jsonObjDecEq as bs with
        | isTrue h2 => isTrue (by rw [hk, hv, h2])
        | isFalse h2 => isFalse (by intro hh; injection hh; contradiction)
      | isFalse hv => isFalse (by
          intro hh; injection hh with hh1 hh2
          exact hv (congrArg Prod.snd hh1))
    | isFalse hk => isFalse (by
        intro hh; injection hh with hh1 hh2
        exact hk (congrArg Prod.fst hh1))

end

instance : DecidableEq Json := jsonDecEq

/-- Lookup of a key in a document (Go map read `data[k]`). -/
def getField (d : Doc) (k : String) : Option Json :=
  (d.find? (fun kv => kv.1 = k)).map (fun kv => kv.2)

/-- Removal of a key from a document (Go `delete(m, k)`). -/
def eraseField (d : Doc) (k : String) : Doc :=
  d.filter (fun kv => kv.1 ≠ k)

/-- Assignment of a key in a document (Go `m[k] = v`). -/
def setField (d : Doc) (k : String) (v : Json) : Doc :=
  if d.any (fun kv => kv.1 = k) then
    d.map (fun kv => if kv.1 = k then (kv.1, v) else kv)
  else d ++ [(k, v)]

/-- internal/model/model.go StripKeys: removes the pk and rk field names from
data for storage; the rk field is only removed when its name is non-empty. -/
def stripKeys (data : Doc) (pkField rkField : String) : Doc :=
  data.filter (fun kv =>
    ¬(kv.1 = pkField ∨ (rkField ≠ "" ∧ kv.1 = rkField)))

/-- internal/model/model.go InjectKeys: copies data and writes the pk value
(and, when the rk field name is non-empty, the rk value) under the configured
field names. -/
def injectKeys (data : Doc) (pkField pkValue rkField rkValue : String) : Doc :=
  let r1 := setField data pkField (Json.str pkValue)
  if rkField ≠ "" then setField r1 rkField (Json.str rkValue) else r1

mutual

/-- internal/model/model.go MergePatch (RFC 7396 style): for each patch key,
null removes the key, an object merges recursively into an existing object at
the same key, and any other value replaces.  Go iterates the patch map in
unspecified order; entries of distinct keys commute on the map, so processing
the association list left to right is one faithful execution. -/
def mergePatch : Doc → Doc → Doc
  | target, [] => target
  | target, (k, v) :: rest => mergePatch (mergePatchEntry target k v) rest
termination_by _ p => sizeOf p

/-- One key of MergePatch: the effect of a single patch entry on the target. -/
def mergePatchEntry : Doc → String → Json → Doc
  | target, k, Json.null => eraseField target k
  | target, k, Json.obj pObj =>
    (match getField target k with
      | some (Json.obj tObj) => setField target k (Json.obj (mergePatch tObj pObj))
      | _ => setField target k (Json.obj pObj))
  | target, k, v => setField target k v
termination_by _ _ v => sizeOf v

end

/-- internal/model/model.go ProjectFields: keeps only the requested fields,
always keeping the pk field and (when non-empty) the rk field. -/
def projectFields (data : Doc) (fields : List String) (pkField rkField : String) : Doc :=
  data.filter (fun kv =>
    kv.1 ∈ fields ∨ kv.1 = pkField ∨ (rkField ≠ "" ∧ kv.1 = rkField))

/-- internal/model/model.go ParseFieldsParam: splits a comma separated fields
parameter, trimming whitespace and dropping empty entries. -/
def parseFieldsParam (fieldsParam : String) : List String :=
  if fieldsParam = "" then []
  else ((fieldsParam.splitOn ",").map String.trim).filter (fun s => s ≠ "")

example : parseFieldsParam "" = [] := by decide
example : mergePatch [("a", Json.str "x")] [("a", Json.null)] = [] := by
  rw [mergePatch, mergePatchEntry, mergePatch]; decide
example :
    getField (mergePatch [("a", Json.obj [("b", Json.num 1)])]
      [("a", Json.obj [("c", Json.num 2)])]) "a"
    = some (Json.obj [("b", Json.num 1), ("c", Json.num 2)]) := by
  simp [mergePatch, mergePatchEntry, getField, setField, List.find?]

/-! ### Text comparison, LIKE, base64url and the pagination cursor codec -/

/-- Strict lexicographic order on character lists by codepoint. -/
def charListLt : List Char → List Char → Bool
  | [], [] => false
  | [], _ :: _ => true
  | _ :: _, [] => false
  | a :: as, b :: bs =>
    a.val < b.val || (a.val = b.val && charListLt as bs)

/-- PostgreSQL text `<` under the C collation: bytewise comparison of the
UTF-8 encodings, which coincides with codepoint-lexicographic order. -/
def strLt (a b : String) : Bool := charListLt a.data b.data

/-- PostgreSQL text `<=` (total order, so `a <= b` iff not `b < a`). -/
def strLe (a b : String) : Bool := !strLt b a

/-- SQL LIKE matching over characters: `%` matches any sequence, `_` any
single character, `\\c` the literal character c, anything else itself.  The
first argument is recursion fuel (every call consumes a pattern or subject
character, so `|s| + |p| + 1` is always enough); structural recursion on the
fuel keeps the definition kernel-computable. -/
def likeMatch : Nat → List Char → List Char → Bool
  | 0, _, _ => false
  | _ + 1, s, [] => s.isEmpty
  | fuel + 1, s, '%' :: ps =>
    likeMatch fuel s ps ||
      (match s with
        | [] => false
        | _ :: srest => likeMatch fuel srest ('%' :: ps))
  | fuel + 1, s, '_' :: ps =>
    (match s with
      | [] => false
      | _ :: srest => likeMatch fuel srest ps)
  | fuel + 1, s, '\\' :: c :: ps =>
    (match s with
      | [] => false
      | d :: srest => d = c && likeMatch fuel srest ps)
  | fuel + 1, s, c :: ps =>
    (match s with
      | [] => false
      | d :: srest => d = c && likeMatch fuel srest ps)

/-- SQL `value LIKE pattern` on text. -/
def sqlLike (value pattern : String) : Bool :=
  likeMatch (value.data.length + pattern.data.length + 1) value.data pattern.data

/-- UTF-8 encoding of a string as a byte list. -/
def utf8Encode (s : String) : List Nat :=
  s.data.flatMap (fun c =>
    let n := c.toNat
    if n < 0x80 then [n]
    else if n < 0x800 then [0xC0 ||| (n >>> 6), 0x80 ||| (n &&& 0x3F)]
    else if n < 0x10000 then
      [0xE0 ||| (n >>> 12), 0x80 ||| ((n >>> 6) &&& 0x3F), 0x80 ||| (n &&& 0x3F)]
    else
      [0xF0 ||| (n >>> 18), 0x80 ||| ((n >>> 12) &&& 0x3F),
       0x80 ||| ((n >>> 6) &&& 0x3F), 0x80 ||| (n &&& 0x3F)])

/-- The base64url alphabet character for a 6-bit value. -/
def b64Char (n : Nat) : Char :=
  if n < 26 then Char.ofNat (65 + n)
  else if n < 52 then Char.ofNat (97 + (n - 26))
  else if n < 62 then Char.ofNat (48 + (n - 52))
  else if n = 62 then '-'
  else '_'

/-- Go encoding/base64 RawURLEncoding.EncodeToString: unpadded base64url. -/
def b64urlEncodeBytes : List Nat → List Char
  | [] => []
  | [b1] =>
    [b64Char (b1 >>> 2), b64Char ((b1 &&& 0x3) <<< 4)]
  | [b1, b2] =>
    [b64Char (b1 >>> 2), b64Char (((b1 &&& 0x3) <<< 4) ||| (b2 >>> 4)),
     b64Char ((b2 &&& 0xF) <<< 2)]
  | b1 :: b2 :: b3 :: rest =>
    b64Char (b1 >>> 2) :: b64Char (((b1 &&& 0x3) <<< 4) ||| (b2 >>> 4)) ::
      b64Char (((b2 &&& 0xF) <<< 2) ||| (b3 >>> 6)) :: b64Char (b3 &&& 0x3F) ::
      b64urlEncodeBytes rest

/-- The 6-bit value of a base64url alphabet character, none for a foreign
character. -/
def b64Val (c : Char) : Option Nat :=
  let n := c.toNat
  if 65 ≤ n ∧ n ≤ 90 then some (n - 65)
  else if 97 ≤ n ∧ n ≤ 122 then some (n - 97 + 26)
  else if 48 ≤ n ∧ n ≤ 57 then some (n - 48 + 52)
  else if c = '-' then some 62
  else if c = '_' then some 63
  else none

/-- Decoding of a list of 6-bit groups back into bytes; a trailing group of
one 6-bit value is an error, matching Go RawURLEncoding.DecodeString (the
default non-strict decoder also ignores non-zero trailing bits). -/
def b64Regroup : List Nat → Option (List Nat)
  | [] => some []
  | [_] => none
  | [a, b] => some [(a <<< 2) ||| (b >>> 4)]
  | [a, b, c] => some [(a <<< 2) ||| (b >>> 4), ((b &&& 0xF) <<< 4) ||| (c >>> 2)]
  | a :: b :: c :: d :: rest =>
    (b64Regroup rest).map (fun tail =>
      ((a <<< 2) ||| (b >>> 4)) :: (((b &&& 0xF) <<< 4) ||| (c >>> 2)) ::
        (((c &&& 0x3) <<< 6) ||| d) :: tail)

/-- Go encoding/base64 RawURLEncoding.DecodeString: any character outside the
alphabet is an error (the Go decoder skips CR and LF, modelled here too). -/
def b64urlDecode (s : String) : Option (List Nat) :=
  let cs := s.data.filter (fun c => c ≠ '\r' ∧ c ≠ '\n')
  (cs.mapM b64Val).bind b64Regroup

/-- JSON string literal quoting as produced by json.Marshal for the cursor
fields (the cursor keys and values used by the repository are plain
identifier-like strings; only quote and backslash escaping is modelled). -/
def jsonQuote (s : String) : String :=
  "\"" ++ String.mk (s.data.flatMap (fun c =>
    if c = '"' ∨ c = '\\' then ['\\', c] else [c])) ++ "\""

/-- The internal pagination cursor of internal/database/store.go: the pk and
rk of the last row of a page. -/
structure Cursor where
  pk : String
  rk : String
deriving DecidableEq

/-- store.go encodeCursor: json.Marshal of the cursor struct (rk has
omitempty, so an empty rk is not serialized), base64url-encoded without
padding. -/
def encodeCursor (pk rk : String) : String :=
  let payload :=
    "\x7b\"pk\":" ++ jsonQuote pk ++
      (if rk = "" then "" else ",\"rk\":" ++ jsonQuote rk) ++ "\x7d"
  String.mk (b64urlEncodeBytes (utf8Encode payload))

/-- ASCII whitespace skipping inside the cursor JSON. -/
def skipWs : List Nat → List Nat
  | b :: rest =>
    if b = 32 ∨ b = 9 ∨ b = 10 ∨ b = 13 then skipWs rest else b :: rest
  | [] => []

/-- Parses a JSON string literal from bytes, handling the `\"` and `\\`
escapes; returns the string and the remaining input.  Bytes outside ASCII
are rejected (cursor payloads produced by the service are ASCII; a non-ASCII
byte in a tampered cursor is treated as a decode failure, which only widens
the set of cursors that degrade to start-of-sequence). -/
def parseJsonString : List Nat → Option (String × List Nat)
  | 92 :: e :: rest =>
    if e = 34 ∨ e = 92 then
      (parseJsonString rest).map (fun p => (String.mk [Char.ofNat e] ++ p.1, p.2))
    else none
  | 34 :: rest => some ("", rest)
  | b :: rest =>
    if b < 128 ∧ b ≠ 34 ∧ b ≠ 92 then
      (parseJsonString rest).map (fun p => (String.mk [Char.ofNat b] ++ p.1, p.2))
    else none
  | [] => none

/-- Parses the members of a JSON object whose values are string literals,
returning the key/value pairs.  Mirrors json.Unmarshal into the cursor
struct for the object shapes the encoder emits.  The first argument is
recursion fuel (each member consumes at least one input byte, so the caller
passes one more than the input length, which is always enough). -/
def parseCursorMembers : Nat → List Nat → Option (List (String × String) × List Nat)
  | 0, _ => none
  | fuel + 1, bs =>
    match skipWs bs with
    | 34 :: rest =>
      match parseJsonString rest with
      | none => none
      | some (key, rest1) =>
        match skipWs rest1 with
        | 58 :: rest2 =>
          match skipWs rest2 with
          | 34 :: rest3 =>
            match parseJsonString rest3 with
            | none => none
            | some (val, rest4) =>
              match skipWs rest4 with
              | 44 :: rest5 =>
                match parseCursorMembers fuel rest5 with
                | none => none
                | some (tail, rest6) => some ((key, val) :: tail, rest6)
              | 125 :: rest5 => some ([(key, val)], rest5)
              | _ => none
          | _ => none
        | _ => none
    | _ => none

/-- store.go decodeCursor: base64url decode followed by json.Unmarshal into
the cursor struct; any failure yields none.  Only string-valued members are
accepted (the encoder never emits anything else; a cursor whose members are
not strings fails to unmarshal into the string-typed struct fields). -/
def decodeCursor (s : String) : Option Cursor :=
  match b64urlDecode s with
  | none => none
  | some bs =>
    match skipWs bs with
    | 123 :: rest =>
      match skipWs rest with
      | 125 :: rest1 =>
        if (skipWs rest1).isEmpty then some ⟨"", ""⟩ else none
      | _ =>
        match parseCursorMembers (rest.length + 1) rest with
        | none => none
        | some (members, rest1) =>
          if (skipWs rest1).isEmpty then
            some ⟨((members.find? (fun m => m.1 = "pk")).map (fun m => m.2)).getD "",
                  ((members.find? (fun m => m.1 = "rk")).map (fun m => m.2)).getD ""⟩
          else none
    | _ => none

example : decodeCursor (encodeCursor "b" "") = some ⟨"b", ""⟩ := by decide
example : decodeCursor (encodeCursor "order1" "line2") = some ⟨"order1", "line2"⟩ := by decide
example : decodeCursor "%%%" = none := by decide
example : decodeCursor "" = none := by decide
example : strLt "ab" "b" = true := by decide
example : sqlLike "abc" "ab%" = true := by decide
example : sqlLike "xbc" "ab%" = false := by decide

/-! ### Store model: rows, filters, ordering and the pagination primitive

internal/database/store.go executes SQL over PostgreSQL; a table is modelled
as a snapshot `List Row` and each generated SELECT as filter / sort / take.
The handler layer consumes per-item physical keys (`ItemResult` with PK, RK
and Data, collected as `rowData` inside queryItems), so the model keeps the
whole row in the page items. -/

mutual

/-- Compact JSONB text rendering, used by the `->>` operator for non-scalar
values (no modelled claim inspects this text; it exists so that `->>` is a
total function of the stored value). -/
def jsonRender : Json → String
  | Json.null => "null"
  | Json.bool b => if b then "true" else "false"
  | Json.num n => toString n
  | Json.str s => jsonQuote s
  | Json.arr xs => "[" ++ jsonRenderList xs ++ "]"
  | Json.obj kvs => "\x7b" ++ jsonRenderObj kvs ++ "\x7d"
termination_by v => sizeOf v

/-- Rendering of array elements. -/
def jsonRenderList : List Json → String
  | [] => ""
  | [x] => jsonRender x
  | x :: rest => jsonRender x ++ ", " ++ jsonRenderList rest
termination_by xs => sizeOf xs

/-- Rendering of object members. -/
def jsonRenderObj : List (String × Json) → String
  | [] => ""
  | [(k, v)] => jsonQuote k ++ ": " ++ jsonRender v
  | (k, v) :: rest => jsonQuote k ++ ": " ++ jsonRender v ++ ", " ++ jsonRenderObj rest
termination_by kvs => sizeOf kvs

end

/-- PostgreSQL `data->>'f'`: SQL NULL (none) when the field is absent or its
value is JSON null, the text form of the value otherwise. -/
def dbText (d : Doc) (f : String) : Option String :=
  match getField d f with
  | none => none
  | some Json.null => none
  | some (Json.bool b) => some (if b then "true" else "false")
  | some (Json.num n) => some (toString n)
  | some (Json.str s) => some s
  | some v => some (jsonRender v)

/-- A physical row: pk and rk columns plus the JSONB payload.  A NULL rk
(pk-only tables) is represented as "", matching how queryItems scans it. -/
structure Row where
  pk : String
  rk : String
  data : Doc
deriving DecidableEq

/-- internal/database/store.go ListOptions. -/
structure ListOptions where
  limit : Int
  cursor : String
  rkBeginsWith : String
  rkGt : String
  rkGte : String
  rkLt : String
  rkLte : String
deriving DecidableEq

/-- The all-default options value (limit 0 = "use the default 50"). -/
def noOptions : ListOptions := ⟨0, "", "", "", "", "", ""⟩

/-- A page: the matching rows and the optional next cursor ("" = absent),
as ListResult with per-item physical keys (ItemResult). -/
structure ListResult where
  items : List Row
  nextCursor : String
deriving DecidableEq

/-- internal/database/store.go IndexQueryConfig: the document key fields of a
GSI; rkField is "" for a pk-only index. -/
structure IndexQueryConfig where
  pkField : String
  rkField : String
deriving DecidableEq

/-- Strict `<` on nullable text under ASC NULLS LAST ordering: every non-null
value sorts before NULL. -/
def optTextLt (a b : Option String) : Bool :=
  match a, b with
  | some x, some y => strLt x y
  | some _, none => true
  | none, _ => false

/-- Strict ordering of two rows under `ORDER BY pkExpr[, rkExpr]` where the
expressions may be physical columns or `data->>` projections. -/
def rowKeyLt (hasRK : Bool) (pkView rkView : Row → Option String) (r1 r2 : Row) : Bool :=
  optTextLt (pkView r1) (pkView r2) ||
    (pkView r1 = pkView r2 && (hasRK && optTextLt (rkView r1) (rkView r2)))

/-- Non-strict row ordering used for sorting (total preorder). -/
def rowKeyLe (hasRK : Bool) (pkView rkView : Row → Option String) (r1 r2 : Row) : Bool :=
  !rowKeyLt hasRK pkView rkView r2 r1

/-- store.go appendCursorFilter: no condition when the cursor is absent or
fails to decode; otherwise `(pk, rkExpr) > (c.pk, c.rk)` for composite
ordering (note that the first component is always the physical pk column)
and `pk > c.pk` otherwise.  SQL three-valued logic makes a comparison with a
NULL rkExpr not-true, so it filters the row out. -/
def cursorCond (hasRK : Bool) (rkView : Row → Option String) (cursorStr : String)
    (r : Row) : Bool :=
  if cursorStr = "" then true
  else
    match decodeCursor cursorStr with
    | none => true
    | some c =>
      if hasRK then
        strLt c.pk r.pk ||
          (r.pk = c.pk &&
            (match rkView r with
              | some v => strLt c.rk v
              | none => false))
      else strLt c.pk r.pk

/-- store.go appendRKFilters: range-key conditions on the physical rk column
for table queries; each condition applies only when its option is set. -/
def tableRKFilters (hasRK : Bool) (o : ListOptions) (r : Row) : Bool :=
  !hasRK ||
    ((o.rkBeginsWith = "" || sqlLike r.rk (o.rkBeginsWith ++ "%")) &&
     (o.rkGt = "" || strLt o.rkGt r.rk) &&
     (o.rkGte = "" || strLe o.rkGte r.rk) &&
     (o.rkLt = "" || strLt r.rk o.rkLt) &&
     (o.rkLte = "" || strLe r.rk o.rkLte))

/-- store.go appendIndexRKFilters: the same range-key conditions over the
`data->>rkField` expression; a NULL expression fails every comparison. -/
def indexRKFilters (rkField : String) (o : ListOptions) (r : Row) : Bool :=
  let t := dbText r.data rkField
  (o.rkBeginsWith = "" ||
    (match t with | some v => sqlLike v (o.rkBeginsWith ++ "%") | none => false)) &&
  (o.rkGt = "" || (match t with | some v => strLt o.rkGt v | none => false)) &&
  (o.rkGte = "" || (match t with | some v => strLe o.rkGte v | none => false)) &&
  (o.rkLt = "" || (match t with | some v => strLt v o.rkLt | none => false)) &&
  (o.rkLte = "" || (match t with | some v => strLe v o.rkLte | none => false))

/-- store.go queryItems: fetch `limit + 1` rows matching the conditions in
`ORDER BY pkExpr[, rkExpr]` order (limit defaults to 50 when non-positive),
truncate to `limit` when more arrived, and emit a cursor holding the last
retained row's physical pk and rk. -/
def queryItems (snap : List Row) (cond : Row → Bool) (limit : Int) (hasRK : Bool)
    (pkView rkView : Row → Option String) : ListResult :=
  let lim : Nat := if limit ≤ 0 then 50 else limit.toNat
  let fetchLimit := lim + 1
  let sorted := List.insertionSort
    (fun r1 r2 => rowKeyLe hasRK pkView rkView r1 r2 = true) (snap.filter cond)
  let collected := sorted.take fetchLimit
  let hasMore := decide (lim < collected.length)
  let items := if hasMore then collected.take lim else collected
  if hasMore then
    match items.getLast? with
    | some last => ⟨items, encodeCursor last.pk last.rk⟩
    | none => ⟨items, ""⟩
  else ⟨items, ""⟩

/-- store.go ListItems: partition lookup `pk = $1` plus optional rk filters
and the cursor condition; ordering by the physical key columns. -/
def listItems (snap : List Row) (pk : String) (hasRK : Bool) (o : ListOptions) :
    ListResult :=
  queryItems snap
    (fun r => r.pk = pk && tableRKFilters hasRK o r &&
      cursorCond hasRK (fun r => some r.rk) o.cursor r)
    o.limit hasRK (fun r => some r.pk) (fun r => some r.rk)

/-- store.go ScanTable: the pagination primitive with no key filter. -/
def scanTable (snap : List Row) (hasRK : Bool) (o : ListOptions) : ListResult :=
  queryItems snap
    (fun r => cursorCond hasRK (fun r => some r.rk) o.cursor r)
    o.limit hasRK (fun r => some r.pk) (fun r => some r.rk)

/-- store.go QueryIndex: `data->>pkField = $1` plus optional index rk filters
and the cursor condition; ordering by the index key expressions. -/
def queryIndex (snap : List Row) (idx : IndexQueryConfig) (indexPk : String)
    (o : ListOptions) : ListResult :=
  let hasRK := idx.rkField ≠ ""
  let rkView := fun r => dbText r.data idx.rkField
  queryItems snap
    (fun r => dbText r.data idx.pkField = some indexPk &&
      (!hasRK || indexRKFilters idx.rkField o r) &&
      cursorCond hasRK rkView o.cursor r)
    o.limit hasRK (fun r => dbText r.data idx.pkField) rkView

/-- store.go ScanIndex: rows whose index pk field is present (and, for a
composite index, whose index rk field is present) plus the cursor condition;
ordering by the index key expressions. -/
def scanIndex (snap : List Row) (idx : IndexQueryConfig) (o : ListOptions) :
    ListResult :=
  let hasRK := idx.rkField ≠ ""
  let rkView := fun r => dbText r.data idx.rkField
  queryItems snap
    (fun r => (dbText r.data idx.pkField).isSome &&
      (!hasRK || (dbText r.data idx.rkField).isSome) &&
      cursorCond hasRK rkView o.cursor r)
    o.limit hasRK (fun r => dbText r.data idx.pkField) rkView

/-- store.go GetItem: the row whose key columns match (rk is compared only
when the table has a range key); returns the payload. -/
def getItemRows (snap : List Row) (hasRK : Bool) (pk rk : String) : Option Doc :=
  (snap.find? (fun r => r.pk = pk && (!hasRK || r.rk = rk))).map (fun r => r.data)

/-- store.go PutItem: upsert keyed by (pk) or (pk, rk); replaces the payload
of the matching row or appends a new row (rk is stored as NULL = "" for
pk-only tables). -/
def putItemRows (snap : List Row) (hasRK : Bool) (pk rk : String) (d : Doc) :
    List Row :=
  let rk' := if hasRK then rk else ""
  let keyMatch := fun (r : Row) => r.pk = pk && (!hasRK || r.rk = rk')
  if snap.any keyMatch then
    snap.map (fun r => if keyMatch r then ⟨r.pk, r.rk, d⟩ else r)
  else snap ++ [⟨pk, rk', d⟩]

/-- store.go DeleteItem: removes the rows whose key columns match. -/
def deleteItemRows (snap : List Row) (hasRK : Bool) (pk rk : String) : List Row :=
  snap.filter (fun r => !(r.pk = pk && (!hasRK || r.rk = rk)))

/-- store.go GetItemByIndex: `data->>pkField = $1 AND data->>rkField = $2
LIMIT 1`; returns the first matching row. -/
def getItemByIndexRows (snap : List Row) (idx : IndexQueryConfig)
    (indexPk indexRk : String) : Option Row :=
  snap.find? (fun r =>
    dbText r.data idx.pkField = some indexPk &&
    dbText r.data idx.rkField = some indexRk)

/-! ### Configuration model (internal/config/config.go) -/

/-- config.KeyConfig: a key field name and its URL-value pattern. -/
structure KeyConfig where
  field : String
  pattern : String
deriving DecidableEq

/-- config.IndexProjection. -/
structure IndexProjectionCfg where
  type : String
  nonKeyAttributes : List String
deriving DecidableEq

/-- config.IndexConfig. -/
structure IndexConfig where
  name : String
  primaryKey : KeyConfig
  rangeKey : Option KeyConfig
  projection : Option IndexProjectionCfg
  allowIndexScan : Bool
deriving DecidableEq

/-- config.TableConfig; the document schema is carried as an opaque JSON
value (it is consumed only by the external validator). -/
structure TableConfig where
  name : String
  primaryKey : KeyConfig
  rangeKey : Option KeyConfig
  allowTableScan : Bool
  schema : Json
  indexes : List IndexConfig
deriving DecidableEq

/-- The rk field name used by the handlers: "" when the table has no range
key (mirrors the `rkField := ""` / `if th.config.RangeKey != nil` pattern). -/
def rkFieldOf (t : TableConfig) : String :=
  match t.rangeKey with
  | some k => k.field
  | none => ""

/-- The rk value the handlers pair with the rk field: the URL range key when
the table declares one, "" otherwise. -/
def rkValueOf (t : TableConfig) (rk : String) : String :=
  match t.rangeKey with
  | some _ => rk
  | none => ""

/-- The IndexQueryConfig the handlers build from an IndexConfig. -/
def iqcOf (idx : IndexConfig) : IndexQueryConfig :=
  ⟨idx.primaryKey.field,
    match idx.rangeKey with
    | some k => k.field
    | none => ""⟩

/-! ### Handler layer (internal/handler/item.go and the list handlers)

The handlers are modelled from the point where the URL key values have
passed ValidateKeyValue / ValidateKeyPattern (those checks reject requests
before any of the modelled logic runs and involve config-supplied regular
expressions).  The external document-schema validator (internal/schema) is a
collaborator per the spec and is passed in as a function returning the
violation detail on failure. -/

/-- internal/validate jsonKeyRegexp first character: `[A-Za-z0-9]`. -/
def isKeyStartChar (c : Char) : Bool :=
  (65 ≤ c.toNat && c.toNat ≤ 90) || (97 ≤ c.toNat && c.toNat ≤ 122) ||
    (48 ≤ c.toNat && c.toNat ≤ 57)

/-- internal/validate jsonKeyRegexp later characters: `[A-Za-z0-9_-]`. -/
def isKeyRestChar (c : Char) : Bool :=
  isKeyStartChar c || c = '_' || c = '-'

/-- internal/validate jsonKeyRegexp: `^[A-Za-z0-9][A-Za-z0-9_-]*$`. -/
def jsonKeyOk (s : String) : Bool :=
  match s.data with
  | [] => false
  | c :: cs => isKeyStartChar c && cs.all isKeyRestChar

mutual

/-- internal/validate validateJSONKeys on a value: recurse into objects and
arrays; scalars carry no keys.  (Go reports the first offending key; the
boolean conjunction is equivalent for acceptance.) -/
def jsonKeysOk : Json → Bool
  | Json.obj kvs => objKeysOk kvs
  | Json.arr xs => arrKeysOk xs
  | _ => true
termination_by v => sizeOf v

/-- validateJSONKeys over object members. -/
def objKeysOk : List (String × Json) → Bool
  | [] => true
  | (k, v) :: rest => jsonKeyOk k && jsonKeysOk v && objKeysOk rest
termination_by kvs => sizeOf kvs

/-- validateJSONKeys over array elements. -/
def arrKeysOk : List Json → Bool
  | [] => true
  | v :: rest => jsonKeysOk v && arrKeysOk rest
termination_by xs => sizeOf xs

end

/-- internal/validate ValidateJSONKeys applied to a document. -/
def docKeysOk (d : Doc) : Bool := objKeysOk d

/-- The body/URL key consistency check of handlePutItem and handlePatchItem:
passes when the field is absent, fails when present and not the URL value's
string. -/
def bodyKeyMatch (doc : Doc) (field value : String) : Bool :=
  match getField doc field with
  | none => true
  | some (Json.str s) => s = value
  | some _ => false

/-- A handler response (the modelled handlers never produce the transport
level 500 because the store model is total). -/
inductive Resp where
  | ok (body : Doc)
  | badRequest (msg : String)
  | notFound (msg : String)
deriving DecidableEq

/-- item.go applyProjection: field-level projection from the `fields` query
parameter; no parameter means no narrowing. -/
def applyProjection (fieldsParam : String) (t : TableConfig) (d : Doc) : Doc :=
  let fields := parseFieldsParam fieldsParam
  if fields = [] then d
  else projectFields d fields t.primaryKey.field (rkFieldOf t)

/-- item.go handleGetItem after URL key validation: fetch by key, 404 when
absent, inject the keys and apply field projection. -/
def handleGetItem (t : TableConfig) (snap : List Row) (pk rk : String)
    (fieldsParam : String) : Resp :=
  match getItemRows snap t.rangeKey.isSome pk rk with
  | none => Resp.notFound "item not found"
  | some data =>
    Resp.ok (applyProjection fieldsParam t
      (injectKeys data t.primaryKey.field pk (rkFieldOf t) (rkValueOf t rk)))

/-- item.go handlePutItem after URL key validation: JSON-key validation,
body/URL key consistency, external schema validation, then strip the key
fields and upsert; the response re-injects the keys. -/
def handlePutItem (t : TableConfig) (validator : Doc → Option String)
    (snap : List Row) (pk rk : String) (doc : Doc) : Resp × List Row :=
  let rkField := rkFieldOf t
  let rkValue := rkValueOf t rk
  let hasRK := t.rangeKey.isSome
  if docKeysOk doc = false then (Resp.badRequest "invalid JSON key", snap)
  else if bodyKeyMatch doc t.primaryKey.field pk = false then
    (Resp.badRequest "pk in body does not match URL", snap)
  else if hasRK && bodyKeyMatch doc rkField rkValue = false then
    (Resp.badRequest "rk in body does not match URL", snap)
  else
    match validator doc with
    | some msg => (Resp.badRequest msg, snap)
    | none =>
      let stripped := stripKeys doc t.primaryKey.field rkField
      (Resp.ok (injectKeys stripped t.primaryKey.field pk rkField rkValue),
        putItemRows snap hasRK pk rk stripped)

/-- item.go handlePatchItem after URL key validation: JSON-key validation and
body/URL key consistency on the patch, 404 when the item is absent, merge
patch, re-validate the merged document with keys, then strip and upsert. -/
def handlePatchItem (t : TableConfig) (validator : Doc → Option String)
    (snap : List Row) (pk rk : String) (patch : Doc) : Resp × List Row :=
  let rkField := rkFieldOf t
  let rkValue := rkValueOf t rk
  let hasRK := t.rangeKey.isSome
  if docKeysOk patch = false then (Resp.badRequest "invalid JSON key", snap)
  else if bodyKeyMatch patch t.primaryKey.field pk = false then
    (Resp.badRequest "pk in body does not match URL", snap)
  else if hasRK && bodyKeyMatch patch rkField rkValue = false then
    (Resp.badRequest "rk in body does not match URL", snap)
  else
    match getItemRows snap hasRK pk rk with
    | none => (Resp.notFound "item not found", snap)
    | some existing =>
      let merged := mergePatch existing patch
      let mergedWithKeys := injectKeys merged t.primaryKey.field pk rkField rkValue
      match validator mergedWithKeys with
      | some msg => (Resp.badRequest msg, snap)
      | none =>
        let stripped := stripKeys mergedWithKeys t.primaryKey.field rkField
        (Resp.ok mergedWithKeys, putItemRows snap hasRK pk rk stripped)

/-- item.go handleDeleteItem after URL key validation. -/
def handleDeleteItem (t : TableConfig) (snap : List Row) (pk rk : String) :
    List Row :=
  deleteItemRows snap t.rangeKey.isSome pk rk

/-- list.go applyIndexProjection: index projection (KEYS_ONLY / INCLUDE /
ALL or unset) followed by request-level field projection. -/
def applyIndexProjection (fieldsParam : String) (t : TableConfig)
    (idx : IndexConfig) (d : Doc) : Doc :=
  let rkField := rkFieldOf t
  let idxKeyFields :=
    idx.primaryKey.field ::
      (match idx.rangeKey with
        | some k => [k.field]
        | none => [])
  let d1 :=
    match idx.projection with
    | none => d
    | some p =>
      if p.type = "KEYS_ONLY" then
        projectFields d idxKeyFields t.primaryKey.field rkField
      else if p.type = "INCLUDE" then
        projectFields d (idxKeyFields ++ p.nonKeyAttributes) t.primaryKey.field rkField
      else d
  applyProjection fieldsParam t d1

/-- list.go projectItems, per item: inject the physical keys (the rk only
when the table has one) and apply field projection. -/
def projectItemRow (t : TableConfig) (fieldsParam : String) (r : Row) : Doc :=
  let rkField := rkFieldOf t
  let rkValue := if rkField ≠ "" then r.rk else ""
  applyProjection fieldsParam t
    (injectKeys r.data t.primaryKey.field r.pk rkField rkValue)

/-- list.go projectIndexItems, per item: inject the physical keys, apply the
index projection and then field projection. -/
def projectIndexItemRow (t : TableConfig) (idx : IndexConfig)
    (fieldsParam : String) (r : Row) : Doc :=
  let rkField := rkFieldOf t
  let rkValue := if rkField ≠ "" then r.rk else ""
  applyIndexProjection fieldsParam t idx
    (injectKeys r.data t.primaryKey.field r.pk rkField rkValue)

/-- A list endpoint response: projected documents plus the next cursor. -/
structure PageResp where
  items : List Doc
  nextCursor : String
deriving DecidableEq

/-- list.go handleListItems after URL key validation. -/
def handleListItems (t : TableConfig) (snap : List Row) (pk : String)
    (o : ListOptions) (fieldsParam : String) : PageResp :=
  let res := listItems snap pk t.rangeKey.isSome o
  ⟨res.items.map (projectItemRow t fieldsParam), res.nextCursor⟩

/-- list.go handleScanTable. -/
def handleScanTable (t : TableConfig) (snap : List Row) (o : ListOptions)
    (fieldsParam : String) : PageResp :=
  let res := scanTable snap t.rangeKey.isSome o
  ⟨res.items.map (projectItemRow t fieldsParam), res.nextCursor⟩

/-- list.go handleQueryIndex after URL key validation. -/
def handleQueryIndex (t : TableConfig) (idx : IndexConfig) (snap : List Row)
    (indexPk : String) (o : ListOptions) (fieldsParam : String) : PageResp :=
  let res := queryIndex snap (iqcOf idx) indexPk o
  ⟨res.items.map (projectIndexItemRow t idx fieldsParam), res.nextCursor⟩

/-- list.go handleScanIndex. -/
def handleScanIndex (t : TableConfig) (idx : IndexConfig) (snap : List Row)
    (o : ListOptions) (fieldsParam : String) : PageResp :=
  let res := scanIndex snap (iqcOf idx) o
  ⟨res.items.map (projectIndexItemRow t idx fieldsParam), res.nextCursor⟩

/-- list.go handleGetIndexItem after URL key validation (registered only for
indexes that declare a range key). -/
def handleGetIndexItem (t : TableConfig) (idx : IndexConfig) (snap : List Row)
    (indexPk indexRk : String) (fieldsParam : String) : Resp :=
  match getItemByIndexRows snap (iqcOf idx) indexPk indexRk with
  | none => Resp.notFound "item not found"
  | some r =>
    let rkField := rkFieldOf t
    let rkValue := match t.rangeKey with | some _ => r.rk | none => ""
    Resp.ok (applyIndexProjection fieldsParam t idx
      (injectKeys r.data t.primaryKey.field r.pk rkField rkValue))

/-! ### Structural fingerprint (internal/config/minimal_structure.go and the
TablesConfigHash of the database package) -/

/-- config.MinimalKey. -/
structure MinimalKey where
  field : String
deriving DecidableEq

/-- config.MinimalIndex. -/
structure MinimalIndex where
  name : String
  primaryKey : MinimalKey
  rangeKey : Option MinimalKey
deriving DecidableEq

/-- config.MinimalTable. -/
structure MinimalTable where
  name : String
  primaryKey : MinimalKey
  rangeKey : Option MinimalKey
  indexes : List MinimalIndex
deriving DecidableEq

/-- config.MinimalTableStructure. -/
structure MinimalTableStructure where
  tables : List MinimalTable
deriving DecidableEq

/-- The structural extraction of one index. -/
def minimalIndexOf (idx : IndexConfig) : MinimalIndex :=
  ⟨idx.name, ⟨idx.primaryKey.field⟩, idx.rangeKey.map (fun k => (⟨k.field⟩ : MinimalKey))⟩

/-- The structural extraction of one table, indexes still in config order. -/
def minimalTableRaw (t : TableConfig) : MinimalTable :=
  ⟨t.name, ⟨t.primaryKey.field⟩, t.rangeKey.map (fun k => (⟨k.field⟩ : MinimalKey)),
    t.indexes.map minimalIndexOf⟩

/-- Name ordering used by the sort.Slice calls (sorted by `Name <`, i.e. the
list ends up ordered by non-strict name order; Go's pdqsort is unstable, and
insertion sort realizes one of its admissible outcomes). -/
def nameLeMinIdx (a b : MinimalIndex) : Prop := a.name ≤ b.name

/-- Name ordering for minimal tables. -/
def nameLeMinTable (a b : MinimalTable) : Prop := a.name ≤ b.name

instance : DecidableRel nameLeMinIdx :=
  fun a b => inferInstanceAs (Decidable (a.name ≤ b.name))

instance : DecidableRel nameLeMinTable :=
  fun a b => inferInstanceAs (Decidable (a.name ≤ b.name))

/-- The per-table step of BuildMinimalTableStructure: structural extraction
with the indexes sorted by name. -/
def minimalTableSorted (t : TableConfig) : MinimalTable :=
  let mt := minimalTableRaw t
  ⟨mt.name, mt.primaryKey, mt.rangeKey, List.insertionSort nameLeMinIdx mt.indexes⟩

/-- config.BuildMinimalTableStructure: extract only the structure-affecting
fields, sort indexes by name within each table, then sort tables by name. -/
def buildMinimalTableStructure (tables : List TableConfig) : MinimalTableStructure :=
  ⟨List.insertionSort nameLeMinTable (tables.map minimalTableSorted)⟩

/-- Two index configurations agree on every structure-affecting attribute
(the spec's notion for C6): same name, same primary key field name, and the
same optional range key field name; projection and scan flag are free. -/
def indexStructEq (i j : IndexConfig) : Prop :=
  i.name = j.name ∧ i.primaryKey.field = j.primaryKey.field ∧
    i.rangeKey.map KeyConfig.field = j.rangeKey.map KeyConfig.field

instance (i j : IndexConfig) : Decidable (indexStructEq i j) :=
  inferInstanceAs (Decidable (_ ∧ _ ∧ _))

/-- Two table configurations agree on every structure-affecting attribute:
same name and key field names, and the same indexes up to reordering and
`indexStructEq`; patterns, schema, and scan flags are free. -/
def tableStructEq (a b : TableConfig) : Prop :=
  a.name = b.name ∧ a.primaryKey.field = b.primaryKey.field ∧
    a.rangeKey.map KeyConfig.field = b.rangeKey.map KeyConfig.field ∧
    ∃ idx2, b.indexes.Perm idx2 ∧ List.Forall₂ indexStructEq a.indexes idx2

/-- YAML rendering of a minimal key block. -/
def yamlMinimalKey (indent : String) (k : MinimalKey) : String :=
  indent ++ "field: " ++ k.field ++ "\n"

/-- YAML rendering of one minimal index sequence entry. -/
def yamlMinimalIndex (i : MinimalIndex) : String :=
  "          - name: " ++ i.name ++ "\n" ++
  "            primaryKey:\n" ++ yamlMinimalKey "                " i.primaryKey ++
  (match i.rangeKey with
    | some k => "            rangeKey:\n" ++ yamlMinimalKey "                " k
    | none => "")

/-- YAML rendering of one minimal table sequence entry (the indexes key has
omitempty and is dropped when the table has no indexes). -/
def yamlMinimalTable (t : MinimalTable) : String :=
  "    - name: " ++ t.name ++ "\n" ++
  "      primaryKey:\n" ++ yamlMinimalKey "          " t.primaryKey ++
  (match t.rangeKey with
    | some k => "      rangeKey:\n" ++ yamlMinimalKey "          " k
    | none => "") ++
  (if t.indexes.isEmpty then ""
   else "      indexes:\n" ++ String.join (t.indexes.map yamlMinimalIndex))

/-- config.MarshalMinimalTableStructureYAML: deterministic serialization of
the canonical minimal structure (models yaml.v3 Marshal of the tagged
structs; the exact byte layout is irrelevant to every stated property, which
only rely on this being a function of the minimal structure). -/
def marshalMinimalYaml (m : MinimalTableStructure) : String :=
  "tables:\n" ++ String.join (m.tables.map yamlMinimalTable)

/-- 32-bit truncation. -/
def w32 (n : Nat) : Nat := n % 4294967296

/-- 32-bit modular addition. -/
def add32 (a b : Nat) : Nat := (a + b) % 4294967296

/-- 32-bit right rotation. -/
def rotr32 (x n : Nat) : Nat := w32 ((x >>> n) ||| (x <<< (32 - n)))

/-- SHA-256 round constants (decimal). -/
def sha256K : List Nat :=
  [1116352408, 1899447441, 3049323471, 3921009573, 961987163,
   1508970993, 2453635748, 2870763221, 3624381080, 310598401,
   607225278, 1426881987, 1925078388, 2162078206, 2614888103,
   3248222580, 3835390401, 4022224774, 264347078, 604807628,
   770255983, 1249150122, 1555081692, 1996064986, 2554220882,
   2821834349, 2952996808, 3210313671, 3336571891, 3584528711,
   113926993, 338241895, 666307205, 773529912, 1294757372,
   1396182291, 1695183700, 1986661051, 2177026350, 2456956037,
   2730485921, 2820302411, 3259730800, 3345764771, 3516065817,
   3600352804, 4094571909, 275423344, 430227734, 506948616,
   659060556, 883997877, 958139571, 1322822218, 1537002063,
   1747873779, 1955562222, 2024104815, 2227730452, 2361852424,
   2428436474, 2756734187, 3204031479, 3329325298]

/-- SHA-256 initial state (decimal). -/
def sha256H0 : List Nat :=
  [1779033703, 3144134277, 1013904242, 2773480762,
   1359893119, 2600822924, 528734635, 1541459225]

/-- Big-endian bytes of a 64-bit quantity. -/
def be64 (n : Nat) : List Nat :=
  [56, 48, 40, 32, 24, 16, 8, 0].map (fun sh => (n >>> sh) % 256)

/-- SHA-256 padding: 0x80, zeros to 56 mod 64, 8-byte big-endian bit length. -/
def sha256Pad (msg : List Nat) : List Nat :=
  let len := msg.length
  let padZeros := (119 - len % 64) % 64
  msg ++ 128 :: List.replicate padZeros 0 ++ be64 (len * 8)

/-- Big-endian 32-bit words from bytes. -/
def bytesToWords : List Nat → List Nat
  | b1 :: b2 :: b3 :: b4 :: rest =>
    (b1 * 16777216 + b2 * 65536 + b3 * 256 + b4) :: bytesToWords rest
  | _ => []

/-- 64-byte chunks of the padded message; the first argument is recursion
fuel (each step drops 64 bytes, so the byte count is always enough). -/
def sha256ChunksF : Nat → List Nat → List (List Nat)
  | _, [] => []
  | 0, bs => [bs]
  | fuel + 1, b :: rest => (b :: rest).take 64 :: sha256ChunksF fuel ((b :: rest).drop 64)

/-- 64-byte chunks of the padded message. -/
def sha256Chunks (bs : List Nat) : List (List Nat) := sha256ChunksF bs.length bs

/-- The two schedule mixing functions of the standard. -/
def sigmaSmall0 (x : Nat) : Nat := (rotr32 x 7) ^^^ (rotr32 x 18) ^^^ (x >>> 3)

/-- The second schedule mixing function. -/
def sigmaSmall1 (x : Nat) : Nat := (rotr32 x 17) ^^^ (rotr32 x 19) ^^^ (x >>> 10)

/-- The two state mixing functions of the standard. -/
def sigmaBig0 (x : Nat) : Nat := (rotr32 x 2) ^^^ (rotr32 x 13) ^^^ (rotr32 x 22)

/-- The second state mixing function. -/
def sigmaBig1 (x : Nat) : Nat := (rotr32 x 6) ^^^ (rotr32 x 11) ^^^ (rotr32 x 25)

/-- The choose function: bits of f where e is set, of g where it is not. -/
def chFun (e f g : Nat) : Nat := (e &&& f) ^^^ ((e ^^^ 4294967295) &&& g)

/-- The majority function on three words. -/
def majFun (a b c : Nat) : Nat := (a &&& b) ^^^ (a &&& c) ^^^ (b &&& c)

/-- Message schedule extension: builds words 16..63; the accumulator holds
the words produced so far, most recent first. -/
def sha256Extend : Nat → List Nat → List Nat
  | 0, wrev => wrev.reverse
  | n + 1, wrev =>
    let nw := add32 (add32 (wrev.getD 15 0) (sigmaSmall0 (wrev.getD 14 0)))
      (add32 (wrev.getD 6 0) (sigmaSmall1 (wrev.getD 1 0)))
    sha256Extend n (nw :: wrev)

/-- One SHA-256 compression round over the 8-word state. -/
def sha256Round (st : List Nat) (kw : Nat × Nat) : List Nat :=
  match st with
  | [a, b, c, d, e, f, g, h] =>
    let t1 := add32 (add32 h (sigmaBig1 e)) (add32 (chFun e f g) (add32 kw.1 kw.2))
    let t2 := add32 (sigmaBig0 a) (majFun a b c)
    [add32 t1 t2, a, b, c, add32 d t1, e, f, g]
  | other => other

/-- One 64-byte chunk folded into the hash state. -/
def sha256Chunk (hs : List Nat) (chunk : List Nat) : List Nat :=
  let w := sha256Extend 48 (bytesToWords chunk).reverse
  let st := (sha256K.zip w).foldl sha256Round hs
  (hs.zip st).map (fun p => add32 p.1 p.2)

/-- Lowercase hexadecimal digit. -/
def hexDigit (n : Nat) : Char :=
  if n < 10 then Char.ofNat (48 + n) else Char.ofNat (97 + (n - 10))

/-- Lowercase hex of one 32-bit word, big-endian nibbles. -/
def hexWord (x : Nat) : List Char :=
  [28, 24, 20, 16, 12, 8, 4, 0].map (fun sh => hexDigit ((x >>> sh) % 16))

/-- SHA-256 of a byte list, as the lowercase hex string that
crypto/sha256 + hex.EncodeToString produce. -/
def sha256Hex (msg : List Nat) : String :=
  let hs := (sha256Chunks (sha256Pad msg)).foldl sha256Chunk sha256H0
  String.mk (hs.flatMap hexWord)

/-- database TablesConfigHash: SHA-256 over the canonical minimal-structure
YAML. -/
def tablesConfigHash (tables : List TableConfig) : String :=
  sha256Hex (utf8Encode (marshalMinimalYaml (buildMinimalTableStructure tables)))

example :
    sha256Hex (utf8Encode "abc") =
      "ba7816bf8f01cfea414140de5dae2223b00361a396177a9cb410ff61f20015ad" := by decide

/-! ### Reconciliation engine (internal/database/migrate.go)

The engine runs inside one transaction; `migrate` computes the transaction
state and returns it on commit, while an error (or a dry run, which rolls
back after computing the plan) leaves the database at the original state.
`runMigrate` is the committed result a caller observes. -/

/-- migrate.go metaConfig: the per-table key-field record in `_meta`
(rangeKeyField is "" for a pk-only table). -/
structure MetaConfig where
  primaryKeyField : String
  rangeKeyField : String
deriving DecidableEq

/-- migrate.go MigrateOptions. -/
structure MigrateOptions where
  cleanup : Bool
  dryRun : Bool
deriving DecidableEq

/-- Durable storage touched by the engine: existence of `_meta`, its
per-table key records, the stored config-hash row (kept apart because it
lives under the reserved name "_meta" and is skipped by cleanup), and the
physical tables and indexes. -/
structure DBState where
  metaTableExists : Bool
  meta : List (String × MetaConfig)
  configHash : Option String
  physTables : List String
  physIndexes : List (String × String)
deriving DecidableEq

/-- `SELECT config FROM _meta WHERE table_name = $1`. -/
def metaLookup (st : DBState) (n : String) : Option MetaConfig :=
  (st.meta.find? (fun e => e.1 = n)).map (fun e => e.2)

/-- The metaConfig recorded for a configured table. -/
def mcOf (t : TableConfig) : MetaConfig :=
  ⟨t.primaryKey.field,
    match t.rangeKey with
    | some k => k.field
    | none => ""⟩

/-- The physical index name `idx_<table>_<index>`. -/
def physIndexName (t : TableConfig) (idx : IndexConfig) : String :=
  "idx_" ++ t.name ++ "_" ++ idx.name

/-- migrate.go createTable: `CREATE TABLE IF NOT EXISTS`. -/
def createTableState (st : DBState) (t : TableConfig) : DBState :=
  if t.name ∈ st.physTables then st
  else { st with physTables := st.physTables ++ [t.name] }

/-- One index of migrate.go reconcileIndexes: create the index if it is not
already present (logged only in a dry run). -/
def createIndexStep (t : TableConfig) (opts : MigrateOptions) (s : DBState)
    (idx : IndexConfig) : DBState :=
  let iname := physIndexName t idx
  if (t.name, iname) ∈ s.physIndexes then s
  else if opts.dryRun then s
  else { s with physIndexes := s.physIndexes ++ [(t.name, iname)] }

/-- migrate.go reconcileIndexes: create each configured index that does not
exist yet; in cleanup mode drop every `idx_`-prefixed index of the table that
is not in the desired set.  In a dry run both actions are logged only. -/
def reconcileIndexes (st : DBState) (t : TableConfig) (opts : MigrateOptions) :
    DBState :=
  let st1 := t.indexes.foldl (createIndexStep t opts) st
  if opts.cleanup then
    let desired := t.indexes.map (physIndexName t)
    if opts.dryRun then st1
    else
      { st1 with
        physIndexes := st1.physIndexes.filter (fun p =>
          !(p.1 = t.name && sqlLike p.2 "idx\\_%" && !(p.2 ∈ desired))) }
  else st1

/-- migrate.go reconcileTable: create the table and record its key fields
when no `_meta` entry exists (actions suppressed in a dry run); otherwise
verify the recorded key-field names and fail on any difference; finally
reconcile the indexes. -/
def reconcileTable (st : DBState) (t : TableConfig) (opts : MigrateOptions) :
    Except String DBState :=
  let mc := mcOf t
  match metaLookup st t.name with
  | none =>
    let st1 := if opts.dryRun then st else createTableState st t
    let st2 :=
      if opts.dryRun then st1
      else { st1 with meta := st1.meta ++ [(t.name, mc)] }
    Except.ok (reconcileIndexes st2 t opts)
  | some existing =>
    if existing.primaryKeyField ≠ mc.primaryKeyField then
      Except.error ("primaryKey field changed from " ++ existing.primaryKeyField ++
        " to " ++ mc.primaryKeyField ++ "; this is not allowed")
    else if existing.rangeKeyField ≠ mc.rangeKeyField then
      Except.error ("rangeKey field changed from " ++ existing.rangeKeyField ++
        " to " ++ mc.rangeKeyField ++ "; this is not allowed")
    else Except.ok (reconcileIndexes st t opts)

/-- The table loop of migrate.go Migrate. -/
def reconcileTables (st : DBState) (tables : List TableConfig)
    (opts : MigrateOptions) : Except String DBState :=
  match tables with
  | [] => Except.ok st
  | t :: rest =>
    match reconcileTable st t opts with
    | Except.error e => Except.error ("table " ++ t.name ++ ": " ++ e)
    | Except.ok st1 => reconcileTables st1 rest opts

/-- migrate.go cleanupTables: drop every table recorded in `_meta` (other
than the reserved hash row, held apart in this model) that is not in the
configuration, and remove its `_meta` entry; logged only in a dry run. -/
def cleanupTables (st : DBState) (configured : List String) (dryRun : Bool) :
    DBState :=
  let toDrop := (st.meta.map (fun e => e.1)).filter (fun n => !(n ∈ configured))
  if dryRun then st
  else
    { st with
      physTables := st.physTables.filter (fun n => !(n ∈ toDrop)),
      meta := st.meta.filter (fun e => !(e.1 ∈ toDrop)) }

/-- upsertTablesConfigHash: store the current structural hash under the
reserved `_meta` row; in a dry run nothing is written. -/
def upsertHashState (st : DBState) (tables : List TableConfig) (dryRun : Bool) :
    DBState :=
  if dryRun then st
  else { st with configHash := some (tablesConfigHash tables) }

/-- migrate.go Migrate: one transaction around ensuring `_meta`, reconciling
every table, optional cleanup and the hash upsert; a dry run computes the
whole plan and then rolls back, so the committed state is the original one. -/
def migrate (db : DBState) (tables : List TableConfig) (opts : MigrateOptions) :
    Except String DBState :=
  let tx0 := { db with metaTableExists := true }
  match reconcileTables tx0 tables opts with
  | Except.error e => Except.error e
  | Except.ok tx1 =>
    let tx2 :=
      if opts.cleanup then cleanupTables tx1 (tables.map (fun t => t.name)) opts.dryRun
      else tx1
    let tx3 := upsertHashState tx2 tables opts.dryRun
    if opts.dryRun then Except.ok db else Except.ok tx3

/-- The committed database state after a migration run: the transaction
result on success, the unchanged original on error (deferred rollback). -/
def runMigrate (db : DBState) (tables : List TableConfig) (opts : MigrateOptions) :
    DBState :=
  match migrate db tables opts with
  | Except.error _ => db
  | Except.ok st => st

/-! ### Lemmas about document operations -/

theorem find?_filter_of_imp {α : Type} (p q : α → Bool) (l : List α)
    (h : ∀ a, p a = true → q a = true) :
    (l.filter q).find? p = l.find? p := by
  induction l with
  | nil => rfl
  | cons a l ih =>
    by_cases hq : q a = true
    · rw [List.filter_cons_of_pos hq]
      by_cases hp : p a = true
      · rw [List.find?_cons_of_pos _ hp, List.find?_cons_of_pos _ hp]
      · rw [List.find?_cons_of_neg _ hp, List.find?_cons_of_neg _ hp, ih]
    · have hp : ¬p a = true := fun hpa => hq (h a hpa)
      rw [List.filter_cons_of_neg (by simpa using hq), List.find?_cons_of_neg _ hp, ih]

theorem getField_map_set_self (d : Doc) (k : String) (v : Json)
    (hany : d.any (fun kv => kv.1 = k) = true) :
    getField (d.map (fun kv => if kv.1 = k then (kv.1, v) else kv)) k = some v := by
  induction d with
  | nil => simp at hany
  | cons a d ih =>
    show getField ((if a.1 = k then (a.1, v) else a) :: d.map _) k = some v
    by_cases ha : a.1 = k
    · rw [if_pos ha]
      unfold getField
      rw [List.find?_cons_of_pos _ (by simpa using ha)]
      rfl
    · rw [if_neg ha]
      have hany' : d.any (fun kv => kv.1 = k) = true := by
        simpa [List.any_cons, ha] using hany
      unfold getField
      rw [List.find?_cons_of_neg _ (by simpa using ha)]
      exact ih hany'

theorem getField_map_set_other (d : Doc) (k k' : String) (v : Json) (h : k' ≠ k) :
    getField (d.map (fun kv => if kv.1 = k then (kv.1, v) else kv)) k' = getField d k' := by
  induction d with
  | nil => rfl
  | cons a d ih =>
    show getField ((if a.1 = k then (a.1, v) else a) :: d.map _) k' = getField (a :: d) k'
    have hbkey : (if a.1 = k then (a.1, v) else a).1 = a.1 := by
      by_cases ha : a.1 = k
      · rw [if_pos ha]
      · rw [if_neg ha]
    by_cases hb : a.1 = k'
    · have ha : ¬a.1 = k := fun hh => h (hb ▸ hh ▸ rfl)
      rw [if_neg ha]
      unfold getField
      rw [List.find?_cons_of_pos _ (by simpa using hb),
        List.find?_cons_of_pos _ (by simpa using hb)]
    · unfold getField
      rw [List.find?_cons_of_neg _ (by simpa [hbkey] using hb),
        List.find?_cons_of_neg _ (by simpa using hb)]
      exact ih

theorem getField_setField_self (d : Doc) (k : String) (v : Json) :
    getField (setField d k v) k = some v := by
  unfold setField
  by_cases hany : d.any (fun kv => kv.1 = k) = true
  · rw [if_pos hany]
    exact getField_map_set_self d k v hany
  · rw [if_neg hany]
    have hnone : d.find? (fun kv => kv.1 = k) = none := by
      rw [List.find?_eq_none]
      intro x hx hpx
      exact hany (List.any_of_mem hx hpx)
    unfold getField
    rw [List.find?_append, hnone, List.find?_cons_of_pos _ (by simp)]
    rfl

theorem getField_setField_other (d : Doc) (k k' : String) (v : Json) (h : k' ≠ k) :
    getField (setField d k v) k' = getField d k' := by
  unfold setField
  by_cases hany : d.any (fun kv => kv.1 = k) = true
  · rw [if_pos hany]
    exact getField_map_set_other d k k' v h
  · rw [if_neg hany]
    unfold getField
    rw [List.find?_append]
    have hsingle : List.find? (fun kv => kv.1 = k') [(k, v)] = none := by
      rw [List.find?_cons_of_neg _ (by simpa using fun hh : k = k' => h hh.symm)]
      rfl
    rw [hsingle]
    cases d.find? (fun kv => kv.1 = k') <;> rfl

theorem getField_eraseField_self (d : Doc) (k : String) :
    getField (eraseField d k) k = none := by
  unfold eraseField getField
  rw [List.find?_eq_none.mpr]
  · rfl
  · intro x hx
    have hne := (List.mem_filter.mp hx).2
    simp at hne ⊢
    exact hne

theorem getField_eraseField_other (d : Doc) (k k' : String) (h : k' ≠ k) :
    getField (eraseField d k) k' = getField d k' := by
  unfold eraseField getField
  rw [find?_filter_of_imp]
  intro a ha
  simp at ha ⊢
  rw [ha]
  exact h

theorem getField_injectKeys_pk (d : Doc) (pkF pkV rkF rkV : String)
    (h : rkF ≠ "" → pkF ≠ rkF) :
    getField (injectKeys d pkF pkV rkF rkV) pkF = some (Json.str pkV) := by
  unfold injectKeys
  by_cases hrk : rkF = ""
  · simp only [hrk]
    rw [if_neg (by simp)]
    exact getField_setField_self d pkF (Json.str pkV)
  · rw [if_pos (by simpa using hrk)]
    rw [getField_setField_other _ _ _ _ (h hrk), getField_setField_self]

theorem getField_injectKeys_rk (d : Doc) (pkF pkV rkF rkV : String) (h : rkF ≠ "") :
    getField (injectKeys d pkF pkV rkF rkV) rkF = some (Json.str rkV) := by
  unfold injectKeys
  rw [if_pos (by simpa using h), getField_setField_self]

theorem getField_injectKeys_other (d : Doc) (pkF pkV rkF rkV k : String)
    (h1 : k ≠ pkF) (h2 : k ≠ rkF) :
    getField (injectKeys d pkF pkV rkF rkV) k = getField d k := by
  unfold injectKeys
  by_cases hrk : rkF = ""
  · simp only [hrk]
    rw [if_neg (by simp)]
    exact getField_setField_other _ _ _ _ h1
  · rw [if_pos (by simpa using hrk), getField_setField_other _ _ _ _ h2,
      getField_setField_other _ _ _ _ h1]

theorem getField_stripKeys_other (d : Doc) (pkF rkF k : String)
    (h1 : k ≠ pkF) (h2 : ¬(rkF ≠ "" ∧ k = rkF)) :
    getField (stripKeys d pkF rkF) k = getField d k := by
  unfold stripKeys getField
  rw [find?_filter_of_imp]
  intro a ha
  simp at ha
  subst ha
  simp [h1]
  by_cases hrk : rkF = ""
  · exact Or.inl hrk
  · exact Or.inr (fun heq => h2 ⟨hrk, heq⟩)

theorem getField_projectFields_of_allowed (d : Doc) (fields : List String)
    (pkF rkF k : String)
    (h : k ∈ fields ∨ k = pkF ∨ (rkF ≠ "" ∧ k = rkF)) :
    getField (projectFields d fields pkF rkF) k = getField d k := by
  unfold projectFields getField
  rw [find?_filter_of_imp]
  intro a ha
  simp at ha
  subst ha
  simpa using h

/-! ### The pagination primitive only returns matching rows -/

theorem queryItems_items_take (snap : List Row) (cond : Row → Bool) (limit : Int)
    (hasRK : Bool) (pkView rkView : Row → Option String) :
    ∃ n, (queryItems snap cond limit hasRK pkView rkView).items =
      (List.insertionSort (fun r1 r2 => rowKeyLe hasRK pkView rkView r1 r2 = true)
        (snap.filter cond)).take n := by
  unfold queryItems
  dsimp only
  repeat' split
  all_goals first
    | exact ⟨_, List.take_take _ _ _⟩
    | exact ⟨_, rfl⟩

theorem mem_queryItems_cond (snap : List Row) (cond : Row → Bool) (limit : Int)
    (hasRK : Bool) (pkView rkView : Row → Option String) (r : Row)
    (hr : r ∈ (queryItems snap cond limit hasRK pkView rkView).items) :
    cond r = true := by
  obtain ⟨n, hn⟩ := queryItems_items_take snap cond limit hasRK pkView rkView
  rw [hn] at hr
  have hsorted := List.mem_of_mem_take hr
  have hfil : r ∈ snap.filter cond :=
    (List.perm_insertionSort _ _).mem_iff.mp hsorted
  exact (List.mem_filter.mp hfil).2

theorem dbText_of_getField_none (d : Doc) (f : String) (h : getField d f = none) :
    dbText d f = none := by
  unfold dbText
  rw [h]

/-- Claim C1 (code bug, failing input): over a snapshot of two rows that both
match a secondary index on field "f" (values "a1" on physical pk "b" and
"b1" on physical pk "a"), a scanIndex walk with page size 1 loses a row: the
first page returns the index-least row and a cursor holding its physical keys
(pk "b"), but the next page filters on the physical pk column (`pk > "b"`)
while the ordering is by the index expression, so the remaining row (pk "a")
is skipped and the walk ends after collecting 1 of the 2 matching items. -/
theorem c1_index_pagination_loses_rows :
    scanIndex [⟨"a", "", [("f", Json.str "b1")]⟩, ⟨"b", "", [("f", Json.str "a1")]⟩]
        ⟨"f", ""⟩ { noOptions with limit := 2 } =
      ⟨[⟨"b", "", [("f", Json.str "a1")]⟩, ⟨"a", "", [("f", Json.str "b1")]⟩], ""⟩ ∧
    scanIndex [⟨"a", "", [("f", Json.str "b1")]⟩, ⟨"b", "", [("f", Json.str "a1")]⟩]
        ⟨"f", ""⟩ { noOptions with limit := 1 } =
      ⟨[⟨"b", "", [("f", Json.str "a1")]⟩], encodeCursor "b" ""⟩ ∧
    scanIndex [⟨"a", "", [("f", Json.str "b1")]⟩, ⟨"b", "", [("f", Json.str "a1")]⟩]
        ⟨"f", ""⟩ { noOptions with limit := 1, cursor := encodeCursor "b" "" } =
      ⟨[], ""⟩ := by
  refine ⟨by decide, by decide, by decide⟩

/-- Claim C2 (counterexample): an item whose payload has the index primary
key field "f" but lacks the index range key field "g" is returned by a
queryIndex over the composite index (f, g) — the generated predicate has no
"rk field present" condition — although the claim says it never appears. -/
theorem c2_counterexample_missing_rk_in_query_results :
    getField [("f", Json.str "x")] "g" = none ∧
    queryIndex [⟨"i1", "", [("f", Json.str "x")]⟩] ⟨"f", "g"⟩ "x" noOptions =
      ⟨[⟨"i1", "", [("f", Json.str "x")]⟩], ""⟩ := by
  refine ⟨by decide, by decide⟩

/-- Claim C2 (amended): an item whose payload lacks the index primary key
field never appears in queryIndex or scanIndex results, and an item lacking
any of the index key fields never appears in scanIndex results, for any
options and on any page; an item lacking only the index range key field can,
however, appear in queryIndex results (see the counterexample). -/
theorem c2_sparse_index_visibility (snap : List Row) (idx : IndexQueryConfig)
    (indexPk : String) (o : ListOptions) (r : Row)
    (hlack : getField r.data idx.pkField = none ∨
      (idx.rkField ≠ "" ∧ getField r.data idx.rkField = none)) :
    r ∉ (scanIndex snap idx o).items ∧
    (getField r.data idx.pkField = none → r ∉ (queryIndex snap idx indexPk o).items) := by
  constructor
  · intro hmem
    unfold scanIndex at hmem
    dsimp only at hmem
    have hcond := mem_queryItems_cond _ _ _ _ _ _ _ hmem
    rcases hlack with h | ⟨hrk, h⟩
    · rw [dbText_of_getField_none _ _ h] at hcond
      simp at hcond
    · rw [dbText_of_getField_none _ _ h] at hcond
      simp [hrk] at hcond
  · intro hpk hmem
    unfold queryIndex at hmem
    dsimp only at hmem
    have hcond := mem_queryItems_cond _ _ _ _ _ _ _ hmem
    rw [dbText_of_getField_none _ _ hpk] at hcond
    simp at hcond

/-- Witness for the amended C2 at a concrete input: the item lacking the
index key field "f" is excluded from both read shapes. -/
theorem c2_sparse_index_visibility_witness :
    (getField [("x", Json.str "1")] "f" = none ∨
      ("" ≠ "" ∧ getField [("x", Json.str "1")] "" = none)) ∧
    ((⟨"a", "", [("x", Json.str "1")]⟩ : Row) ∉
        (scanIndex [⟨"a", "", [("x", Json.str "1")]⟩] ⟨"f", ""⟩ noOptions).items ∧
      (getField [("x", Json.str "1")] "f" = none →
        (⟨"a", "", [("x", Json.str "1")]⟩ : Row) ∉
          (queryIndex [⟨"a", "", [("x", Json.str "1")]⟩] ⟨"f", ""⟩ "v" noOptions).items)) :=
  ⟨Or.inl (by decide),
    c2_sparse_index_visibility [⟨"a", "", [("x", Json.str "1")]⟩] ⟨"f", ""⟩ "v"
      noOptions ⟨"a", "", [("x", Json.str "1")]⟩ (Or.inl (by decide))⟩

theorem cursorCond_start_of_sequence (hasRK : Bool) (rkView : Row → Option String)
    (s : String) (hs : s = "" ∨ decodeCursor s = none) (r : Row) :
    cursorCond hasRK rkView s r = true := by
  unfold cursorCond
  by_cases he : s = ""
  · rw [if_pos he]
  · rcases hs with h | h
    · exact absurd h he
    · rw [if_neg he, h]

/-- Claim C9: on every paginated read, an absent cursor or one that fails to
decode is treated as start-of-sequence: the call returns exactly the page a
cursorless call returns.  The operations are total functions of the snapshot
and options (decode failures are swallowed inside appendCursorFilter), so no
error can arise from the cursor. -/
theorem c9_bad_cursor_degrades_to_start (snap : List Row) (pk : String)
    (hasRK : Bool) (idx : IndexQueryConfig) (indexPk : String) (o : ListOptions)
    (s : String) (hs : s = "" ∨ decodeCursor s = none) :
    listItems snap pk hasRK { o with cursor := s } =
      listItems snap pk hasRK { o with cursor := "" } ∧
    scanTable snap hasRK { o with cursor := s } =
      scanTable snap hasRK { o with cursor := "" } ∧
    queryIndex snap idx indexPk { o with cursor := s } =
      queryIndex snap idx indexPk { o with cursor := "" } ∧
    scanIndex snap idx { o with cursor := s } =
      scanIndex snap idx { o with cursor := "" } := by
  have hc : ∀ (hk : Bool) (rv : Row → Option String) (r : Row),
      cursorCond hk rv s r = cursorCond hk rv "" r := by
    intro hk rv r
    rw [cursorCond_start_of_sequence hk rv s hs,
      cursorCond_start_of_sequence hk rv "" (Or.inl rfl)]
  refine ⟨?_, ?_, ?_, ?_⟩
  · unfold listItems
    dsimp only
    congr 1
    funext r
    rw [hc]
    rfl
  · unfold scanTable
    dsimp only
    congr 1
    funext r
    rw [hc]
  · unfold queryIndex
    dsimp only
    congr 1
    funext r
    rw [hc]
    rfl
  · unfold scanIndex
    dsimp only
    congr 1
    funext r
    rw [hc]

/-- Witness for C9 at a concrete undecodable cursor ("%%%" is not base64url). -/
theorem c9_bad_cursor_degrades_to_start_witness :
    ("%%%" = "" ∨ decodeCursor "%%%" = none) ∧
    (listItems [] "p" true { noOptions with cursor := "%%%" } =
        listItems [] "p" true { noOptions with cursor := "" } ∧
      scanTable [] true { noOptions with cursor := "%%%" } =
        scanTable [] true { noOptions with cursor := "" } ∧
      queryIndex [] ⟨"f", ""⟩ "v" { noOptions with cursor := "%%%" } =
        queryIndex [] ⟨"f", ""⟩ "v" { noOptions with cursor := "" } ∧
      scanIndex [] ⟨"f", ""⟩ { noOptions with cursor := "%%%" } =
        scanIndex [] ⟨"f", ""⟩ { noOptions with cursor := "" }) :=
  ⟨Or.inr (by decide),
    c9_bad_cursor_degrades_to_start [] "p" true ⟨"f", ""⟩ "v" noOptions "%%%"
      (Or.inr (by decide))⟩

theorem rangeKey_isSome_of_rkField_ne (t : TableConfig) (h : rkFieldOf t ≠ "") :
    t.rangeKey.isSome = true := by
  unfold rkFieldOf at h
  cases ht : t.rangeKey with
  | none => rw [ht] at h; exact absurd rfl h
  | some k => rfl

theorem rkValueOf_of_isSome (t : TableConfig) (rk : String)
    (h : t.rangeKey.isSome = true) : rkValueOf t rk = rk := by
  unfold rkValueOf
  cases ht : t.rangeKey with
  | none => rw [ht] at h; simp at h
  | some k => rfl

theorem getField_applyProjection_key (fp : String) (t : TableConfig) (d : Doc)
    (k : String)
    (h : k = t.primaryKey.field ∨ (rkFieldOf t ≠ "" ∧ k = rkFieldOf t)) :
    getField (applyProjection fp t d) k = getField d k := by
  unfold applyProjection
  dsimp only
  split
  · rfl
  · exact getField_projectFields_of_allowed _ _ _ _ _ (Or.inr h)

theorem getField_applyIndexProjection_key (fp : String) (t : TableConfig)
    (idx : IndexConfig) (d : Doc) (k : String)
    (h : k = t.primaryKey.field ∨ (rkFieldOf t ≠ "" ∧ k = rkFieldOf t)) :
    getField (applyIndexProjection fp t idx d) k = getField d k := by
  unfold applyIndexProjection
  dsimp only
  rw [getField_applyProjection_key fp t _ k h]
  split
  · rfl
  · split
    · exact getField_projectFields_of_allowed _ _ _ _ _ (Or.inr h)
    · split
      · exact getField_projectFields_of_allowed _ _ _ _ _ (Or.inr h)
      · rfl

theorem getField_injected_pk (d : Doc) (t : TableConfig) (pkV rkV : String)
    (hk : rkFieldOf t ≠ "" → t.primaryKey.field ≠ rkFieldOf t) :
    getField (injectKeys d t.primaryKey.field pkV (rkFieldOf t) rkV)
      t.primaryKey.field = some (Json.str pkV) :=
  getField_injectKeys_pk d _ _ _ _ hk

/-- Claim C10: every read path maps the configured pk field name to the
row's physical pk value and, when the table has a range key, the rk field
name to the physical rk value, overwriting whatever the stored payload held
under those names.  `projectItemRow` / `projectIndexItemRow` are exactly the
per-item rendering applied to each page item of listByPartition, scanTable,
queryIndex and scanIndex; `handleGetItem` / `handleGetIndexItem` are the
single-item paths (the lookup conjunct shows the URL key a get injects is
the found row's physical key). -/
theorem c10_read_paths_inject_physical_keys
    (t : TableConfig) (idx : IndexConfig) (fp : String) (r : Row)
    (snap : List Row) (pk rk : String)
    (hk : rkFieldOf t ≠ "" → t.primaryKey.field ≠ rkFieldOf t) :
    (getField (projectItemRow t fp r) t.primaryKey.field = some (Json.str r.pk) ∧
      (rkFieldOf t ≠ "" →
        getField (projectItemRow t fp r) (rkFieldOf t) = some (Json.str r.rk))) ∧
    (getField (projectIndexItemRow t idx fp r) t.primaryKey.field = some (Json.str r.pk) ∧
      (rkFieldOf t ≠ "" →
        getField (projectIndexItemRow t idx fp r) (rkFieldOf t) = some (Json.str r.rk))) ∧
    (∀ d, handleGetItem t snap pk rk fp = Resp.ok d →
      getField d t.primaryKey.field = some (Json.str pk) ∧
        (rkFieldOf t ≠ "" → getField d (rkFieldOf t) = some (Json.str rk))) ∧
    (∀ row, snap.find? (fun rr => rr.pk = pk && (!t.rangeKey.isSome || rr.rk = rk)) =
        some row →
      row.pk = pk ∧ (t.rangeKey.isSome = true → row.rk = rk)) ∧
    (∀ ipk irk row d, getItemByIndexRows snap (iqcOf idx) ipk irk = some row →
      handleGetIndexItem t idx snap ipk irk fp = Resp.ok d →
        getField d t.primaryKey.field = some (Json.str row.pk) ∧
          (rkFieldOf t ≠ "" →
            getField d (rkFieldOf t) = some (Json.str row.rk))) := by
  refine ⟨⟨?_, ?_⟩, ⟨?_, ?_⟩, ?_, ?_, ?_⟩
  · unfold projectItemRow
    dsimp only
    rw [getField_applyProjection_key fp t _ _ (Or.inl rfl)]
    exact getField_injected_pk _ _ _ _ hk
  · intro hrk
    unfold projectItemRow
    dsimp only
    rw [getField_applyProjection_key fp t _ _ (Or.inr ⟨hrk, rfl⟩),
      getField_injectKeys_rk _ _ _ _ _ hrk, if_pos hrk]
  · unfold projectIndexItemRow
    dsimp only
    rw [getField_applyIndexProjection_key fp t idx _ _ (Or.inl rfl)]
    exact getField_injected_pk _ _ _ _ hk
  · intro hrk
    unfold projectIndexItemRow
    dsimp only
    rw [getField_applyIndexProjection_key fp t idx _ _ (Or.inr ⟨hrk, rfl⟩),
      getField_injectKeys_rk _ _ _ _ _ hrk, if_pos hrk]
  · intro d hd
    unfold handleGetItem at hd
    cases hg : getItemRows snap t.rangeKey.isSome pk rk with
    | none => rw [hg] at hd; exact absurd hd (by simp)
    | some dd =>
      rw [hg] at hd
      have hdd : d = applyProjection fp t
          (injectKeys dd t.primaryKey.field pk (rkFieldOf t) (rkValueOf t rk)) := by
        injection hd with h1
        exact h1.symm
      subst hdd
      constructor
      · rw [getField_applyProjection_key fp t _ _ (Or.inl rfl)]
        exact getField_injected_pk _ _ _ _ hk
      · intro hrk
        rw [getField_applyProjection_key fp t _ _ (Or.inr ⟨hrk, rfl⟩),
          getField_injectKeys_rk _ _ _ _ _ hrk,
          rkValueOf_of_isSome t rk (rangeKey_isSome_of_rkField_ne t hrk)]
  · intro row hrow
    have hp := List.find?_some hrow
    simp at hp
    refine ⟨hp.1, fun hsome => ?_⟩
    rcases hp.2 with h | h
    · rw [h] at hsome; simp at hsome
    · exact h
  · intro ipk irk row d hrow hd
    unfold handleGetIndexItem at hd
    rw [hrow] at hd
    dsimp only at hd
    have hdd : d = applyIndexProjection fp t idx
        (injectKeys row.data t.primaryKey.field row.pk (rkFieldOf t)
          (rkValueOf t row.rk)) := by
      injection hd with h1
      exact h1.symm
    subst hdd
    constructor
    · rw [getField_applyIndexProjection_key fp t idx _ _ (Or.inl rfl)]
      exact getField_injected_pk _ _ _ _ hk
    · intro hrk
      rw [getField_applyIndexProjection_key fp t idx _ _ (Or.inr ⟨hrk, rfl⟩),
        getField_injectKeys_rk _ _ _ _ _ hrk,
        rkValueOf_of_isSome t row.rk (rangeKey_isSome_of_rkField_ne t hrk)]

/-- Witness for C10 at a concrete table (pk field "id", rk field "rid"),
with a payload that even holds a conflicting value under "id". -/
theorem c10_read_paths_inject_physical_keys_witness :
    (rkFieldOf ⟨"tbl", ⟨"id", "p"⟩, some ⟨"rid", "p"⟩, false, Json.null, []⟩ ≠ "" →
      (⟨"tbl", ⟨"id", "p"⟩, some ⟨"rid", "p"⟩, false, Json.null, []⟩ : TableConfig).primaryKey.field ≠
        rkFieldOf ⟨"tbl", ⟨"id", "p"⟩, some ⟨"rid", "p"⟩, false, Json.null, []⟩) ∧
    ((getField (projectItemRow ⟨"tbl", ⟨"id", "p"⟩, some ⟨"rid", "p"⟩, false, Json.null, []⟩ ""
          ⟨"A", "B", [("id", Json.num 9)]⟩)
        (⟨"tbl", ⟨"id", "p"⟩, some ⟨"rid", "p"⟩, false, Json.null, []⟩ : TableConfig).primaryKey.field =
          some (Json.str "A") ∧
      (rkFieldOf ⟨"tbl", ⟨"id", "p"⟩, some ⟨"rid", "p"⟩, false, Json.null, []⟩ ≠ "" →
        getField (projectItemRow ⟨"tbl", ⟨"id", "p"⟩, some ⟨"rid", "p"⟩, false, Json.null, []⟩ ""
            ⟨"A", "B", [("id", Json.num 9)]⟩)
          (rkFieldOf ⟨"tbl", ⟨"id", "p"⟩, some ⟨"rid", "p"⟩, false, Json.null, []⟩) =
            some (Json.str "B"))) ∧
    (getField (projectIndexItemRow ⟨"tbl", ⟨"id", "p"⟩, some ⟨"rid", "p"⟩, false, Json.null, []⟩
          ⟨"by", ⟨"f", "p"⟩, none, none, false⟩ "" ⟨"A", "B", [("id", Json.num 9)]⟩)
        (⟨"tbl", ⟨"id", "p"⟩, some ⟨"rid", "p"⟩, false, Json.null, []⟩ : TableConfig).primaryKey.field =
          some (Json.str "A") ∧
      (rkFieldOf ⟨"tbl", ⟨"id", "p"⟩, some ⟨"rid", "p"⟩, false, Json.null, []⟩ ≠ "" →
        getField (projectIndexItemRow ⟨"tbl", ⟨"id", "p"⟩, some ⟨"rid", "p"⟩, false, Json.null, []⟩
            ⟨"by", ⟨"f", "p"⟩, none, none, false⟩ "" ⟨"A", "B", [("id", Json.num 9)]⟩)
          (rkFieldOf ⟨"tbl", ⟨"id", "p"⟩, some ⟨"rid", "p"⟩, false, Json.null, []⟩) =
            some (Json.str "B"))) ∧
    (∀ d, handleGetItem ⟨"tbl", ⟨"id", "p"⟩, some ⟨"rid", "p"⟩, false, Json.null, []⟩ [] "x" "y" "" =
        Resp.ok d →
      getField d (⟨"tbl", ⟨"id", "p"⟩, some ⟨"rid", "p"⟩, false, Json.null, []⟩ : TableConfig).primaryKey.field =
          some (Json.str "x") ∧
        (rkFieldOf ⟨"tbl", ⟨"id", "p"⟩, some ⟨"rid", "p"⟩, false, Json.null, []⟩ ≠ "" →
          getField d (rkFieldOf ⟨"tbl", ⟨"id", "p"⟩, some ⟨"rid", "p"⟩, false, Json.null, []⟩) =
            some (Json.str "y"))) ∧
    (∀ row, List.find? (fun rr => rr.pk = "x" &&
          (!(⟨"tbl", ⟨"id", "p"⟩, some ⟨"rid", "p"⟩, false, Json.null, []⟩ : TableConfig).rangeKey.isSome ||
            rr.rk = "y")) ([] : List Row) = some row →
      row.pk = "x" ∧
        ((⟨"tbl", ⟨"id", "p"⟩, some ⟨"rid", "p"⟩, false, Json.null, []⟩ : TableConfig).rangeKey.isSome = true →
          row.rk = "y")) ∧
    (∀ ipk irk row d,
      getItemByIndexRows [] (iqcOf ⟨"by", ⟨"f", "p"⟩, none, none, false⟩) ipk irk = some row →
      handleGetIndexItem ⟨"tbl", ⟨"id", "p"⟩, some ⟨"rid", "p"⟩, false, Json.null, []⟩
          ⟨"by", ⟨"f", "p"⟩, none, none, false⟩ [] ipk irk "" = Resp.ok d →
        getField d (⟨"tbl", ⟨"id", "p"⟩, some ⟨"rid", "p"⟩, false, Json.null, []⟩ : TableConfig).primaryKey.field =
            some (Json.str row.pk) ∧
          (rkFieldOf ⟨"tbl", ⟨"id", "p"⟩, some ⟨"rid", "p"⟩, false, Json.null, []⟩ ≠ "" →
            getField d (rkFieldOf ⟨"tbl", ⟨"id", "p"⟩, some ⟨"rid", "p"⟩, false, Json.null, []⟩) =
              some (Json.str row.rk)))) :=
  ⟨by decide,
    c10_read_paths_inject_physical_keys ⟨"tbl", ⟨"id", "p"⟩, some ⟨"rid", "p"⟩, false, Json.null, []⟩
      ⟨"by", ⟨"f", "p"⟩, none, none, false⟩ "" ⟨"A", "B", [("id", Json.num 9)]⟩ [] "x" "y" (by decide)⟩

/-! ### Merge-patch lemmas -/

theorem getField_cons (k1 : String) (v1 : Json) (rest : Doc) (k : String) :
    getField ((k1, v1) :: rest) k = if k1 = k then some v1 else getField rest k := by
  unfold getField
  by_cases h : k1 = k
  · rw [List.find?_cons_of_pos _ (by simpa using h), if_pos h]
    rfl
  · rw [List.find?_cons_of_neg _ (by simpa using h), if_neg h]

theorem getField_mergePatchEntry_other (t : Doc) (k k' : String) (v : Json)
    (h : k' ≠ k) :
    getField (mergePatchEntry t k v) k' = getField t k' := by
  cases v with
  | null => rw [mergePatchEntry]; exact getField_eraseField_other t k k' h
  | obj pObj =>
    rw [mergePatchEntry]
    split
    · exact getField_setField_other t k k' _ h
    · exact getField_setField_other t k k' _ h
  | _ =>
    rw [mergePatchEntry] <;>
      first
        | exact getField_setField_other t k k' _ h
        | exact fun hh => Json.noConfusion hh
        | exact fun _ hh => Json.noConfusion hh

theorem getField_mergePatchEntry_null (t : Doc) (k : String) :
    getField (mergePatchEntry t k Json.null) k = none := by
  rw [mergePatchEntry]
  exact getField_eraseField_self t k

theorem getField_mergePatchEntry_objobj (t : Doc) (k : String) (p' t' : Doc)
    (ht : getField t k = some (Json.obj t')) :
    getField (mergePatchEntry t k (Json.obj p')) k =
      some (Json.obj (mergePatch t' p')) := by
  rw [mergePatchEntry, ht]
  exact getField_setField_self t k _

theorem getField_mergePatchEntry_replace (t : Doc) (k : String) (v : Json)
    (hv : v ≠ Json.null)
    (hobj : ∀ p', v = Json.obj p' → ∀ t', getField t k ≠ some (Json.obj t')) :
    getField (mergePatchEntry t k v) k = some v := by
  cases v with
  | null => exact absurd rfl hv
  | obj pObj =>
    rw [mergePatchEntry]
    split
    · rename_i tObj heq
      exact absurd heq (hobj pObj rfl tObj)
    · exact getField_setField_self t k _
  | _ =>
    rw [mergePatchEntry] <;>
      first
        | exact getField_setField_self t k _
        | exact fun hh => Json.noConfusion hh
        | exact fun _ hh => Json.noConfusion hh

theorem getField_mergePatch_not_in_patch (patch : Doc) (t : Doc) (k : String)
    (hp : getField patch k = none) :
    getField (mergePatch t patch) k = getField t k := by
  induction patch generalizing t with
  | nil => rw [mergePatch]
  | cons e rest ih =>
    obtain ⟨k1, v1⟩ := e
    rw [getField_cons] at hp
    by_cases h1 : k1 = k
    · rw [if_pos h1] at hp; exact absurd hp (by simp)
    · rw [if_neg h1] at hp
      rw [mergePatch, ih _ hp]
      exact getField_mergePatchEntry_other t k1 k v1 (fun hh => h1 hh.symm)

theorem getField_eq_none_of_not_mem_keys (d : Doc) (k : String)
    (h : k ∉ d.map Prod.fst) :
    getField d k = none := by
  unfold getField
  rw [List.find?_eq_none.mpr]
  · rfl
  · intro x hx hpx
    simp at hpx
    exact h (hpx ▸ List.mem_map_of_mem Prod.fst hx)

theorem getField_mergePatch_null (t patch : Doc) (k : String)
    (hnd : (patch.map Prod.fst).Nodup)
    (hp : getField patch k = some Json.null) :
    getField (mergePatch t patch) k = none := by
  induction patch generalizing t with
  | nil => simp [getField] at hp
  | cons e rest ih =>
    obtain ⟨k1, v1⟩ := e
    rw [getField_cons] at hp
    rw [mergePatch]
    have hnd2 : (k1 :: rest.map Prod.fst).Nodup := by
      simpa only [List.map_cons] using hnd
    have hnd' : (rest.map Prod.fst).Nodup := (List.nodup_cons.mp hnd2).2
    by_cases h1 : k1 = k
    · rw [if_pos h1] at hp
      injection hp with hv
      subst hv
      have hnotmem : k ∉ rest.map Prod.fst := by
        have hh := (List.nodup_cons.mp hnd2).1
        rw [h1] at hh
        exact hh
      rw [getField_mergePatch_not_in_patch rest _ k
        (getField_eq_none_of_not_mem_keys rest k hnotmem), h1]
      exact getField_mergePatchEntry_null t k
    · rw [if_neg h1] at hp
      exact ih (mergePatchEntry t k1 v1) hnd' hp

theorem getField_mergePatch_objobj (t patch : Doc) (k : String) (p' t' : Doc)
    (hnd : (patch.map Prod.fst).Nodup)
    (hp : getField patch k = some (Json.obj p'))
    (ht : getField t k = some (Json.obj t')) :
    getField (mergePatch t patch) k = some (Json.obj (mergePatch t' p')) := by
  induction patch generalizing t with
  | nil => simp [getField] at hp
  | cons e rest ih =>
    obtain ⟨k1, v1⟩ := e
    rw [getField_cons] at hp
    rw [mergePatch]
    have hnd2 : (k1 :: rest.map Prod.fst).Nodup := by
      simpa only [List.map_cons] using hnd
    have hnd' : (rest.map Prod.fst).Nodup := (List.nodup_cons.mp hnd2).2
    by_cases h1 : k1 = k
    · rw [if_pos h1] at hp
      injection hp with hv
      subst hv
      have hnotmem : k ∉ rest.map Prod.fst := by
        have hh := (List.nodup_cons.mp hnd2).1
        rw [h1] at hh
        exact hh
      rw [getField_mergePatch_not_in_patch rest _ k
        (getField_eq_none_of_not_mem_keys rest k hnotmem), h1]
      exact getField_mergePatchEntry_objobj t k p' t' ht
    · rw [if_neg h1] at hp
      refine ih (mergePatchEntry t k1 v1) hnd' hp ?_
      rw [getField_mergePatchEntry_other t k1 k v1 (fun hh => h1 hh.symm)]
      exact ht

theorem getField_mergePatch_replace (t patch : Doc) (k : String) (v : Json)
    (hnd : (patch.map Prod.fst).Nodup)
    (hp : getField patch k = some v) (hv : v ≠ Json.null)
    (hobj : ∀ p', v = Json.obj p' → ∀ t', getField t k ≠ some (Json.obj t')) :
    getField (mergePatch t patch) k = some v := by
  induction patch generalizing t with
  | nil => simp [getField] at hp
  | cons e rest ih =>
    obtain ⟨k1, v1⟩ := e
    rw [getField_cons] at hp
    rw [mergePatch]
    have hnd2 : (k1 :: rest.map Prod.fst).Nodup := by
      simpa only [List.map_cons] using hnd
    have hnd' : (rest.map Prod.fst).Nodup := (List.nodup_cons.mp hnd2).2
    by_cases h1 : k1 = k
    · rw [if_pos h1] at hp
      injection hp with hveq
      subst hveq
      have hnotmem : k ∉ rest.map Prod.fst := by
        have hh := (List.nodup_cons.mp hnd2).1
        rw [h1] at hh
        exact hh
      rw [getField_mergePatch_not_in_patch rest _ k
        (getField_eq_none_of_not_mem_keys rest k hnotmem), h1]
      exact getField_mergePatchEntry_replace t k v1 hv hobj
    · rw [if_neg h1] at hp
      refine ih (mergePatchEntry t k1 v1) hnd' hp ?_
      intro p' hpv t' hget
      rw [getField_mergePatchEntry_other t k1 k v1 (fun hh => h1 hh.symm)] at hget
      exact hobj p' hpv t' hget

/-- Claim C4: the patch handler applies RFC 7396 merge-patch rules — a null
patch value removes the key, an object value merges recursively into an
existing object value at the same key, any other patch value (or an object
value over a non-object target) replaces wholesale — and patching an absent
item returns not-found without writing (the store state is unchanged on every
absent-item path).  The Nodup hypothesis states that the patch came from a
Go map (unique keys). -/
theorem c4_merge_patch_semantics (t patch : Doc) (k : String) (v : Json)
    (p' t' : Doc) (tbl : TableConfig) (validator : Doc → Option String)
    (snap : List Row) (pk rk : String)
    (hnd : (patch.map Prod.fst).Nodup) :
    (getField patch k = some Json.null → getField (mergePatch t patch) k = none) ∧
    (getField patch k = some (Json.obj p') → getField t k = some (Json.obj t') →
      getField (mergePatch t patch) k = some (Json.obj (mergePatch t' p'))) ∧
    (getField patch k = some v → v ≠ Json.null →
      (∀ q, v = Json.obj q → ∀ t0, getField t k ≠ some (Json.obj t0)) →
      getField (mergePatch t patch) k = some v) ∧
    (getItemRows snap tbl.rangeKey.isSome pk rk = none →
      (handlePatchItem tbl validator snap pk rk patch).2 = snap ∧
      (docKeysOk patch = true →
        bodyKeyMatch patch tbl.primaryKey.field pk = true →
        (tbl.rangeKey.isSome = true →
          bodyKeyMatch patch (rkFieldOf tbl) (rkValueOf tbl rk) = true) →
        handlePatchItem tbl validator snap pk rk patch =
          (Resp.notFound "item not found", snap))) := by
  refine ⟨fun hp => getField_mergePatch_null t patch k hnd hp,
    fun hp ht => getField_mergePatch_objobj t patch k p' t' hnd hp ht,
    fun hp hv hobj => getField_mergePatch_replace t patch k v hnd hp hv hobj,
    fun habs => ⟨?_, fun hkeys hpk hrk => ?_⟩⟩
  · unfold handlePatchItem
    dsimp only
    split
    · rfl
    · split
      · rfl
      · split
        · rfl
        · rw [habs]
  · unfold handlePatchItem
    dsimp only
    rw [if_neg (by simp [hkeys]), if_neg (by simp [hpk]), if_neg ?hrkneg, habs]
    case hrkneg =>
      intro hand
      have h2 : tbl.rangeKey.isSome = true ∧
          bodyKeyMatch patch (rkFieldOf tbl) (rkValueOf tbl rk) = false := by
        simpa using hand
      have hb := h2.2
      rw [hrk h2.1] at hb
      exact Bool.noConfusion hb

/-- Witness for C4 at a concrete target, patch and table. -/
theorem c4_merge_patch_semantics_witness :
    ((([("a", Json.null), ("b", Json.obj [("c", Json.num 2)])] : Doc).map Prod.fst).Nodup) ∧
    ((getField [("a", Json.null), ("b", Json.obj [("c", Json.num 2)])] "a" = some Json.null →
      getField (mergePatch [("a", Json.str "x"), ("b", Json.obj [("d", Json.num 1)])]
        [("a", Json.null), ("b", Json.obj [("c", Json.num 2)])]) "a" = none) ∧
    (getField [("a", Json.null), ("b", Json.obj [("c", Json.num 2)])] "a" =
        some (Json.obj [("c", Json.num 2)]) →
      getField [("a", Json.str "x"), ("b", Json.obj [("d", Json.num 1)])] "a" =
        some (Json.obj [("d", Json.num 1)]) →
      getField (mergePatch [("a", Json.str "x"), ("b", Json.obj [("d", Json.num 1)])]
          [("a", Json.null), ("b", Json.obj [("c", Json.num 2)])]) "a" =
        some (Json.obj (mergePatch [("d", Json.num 1)] [("c", Json.num 2)]))) ∧
    (getField [("a", Json.null), ("b", Json.obj [("c", Json.num 2)])] "a" = some (Json.str "z") →
      Json.str "z" ≠ Json.null →
      (∀ q, Json.str "z" = Json.obj q → ∀ t0,
        getField [("a", Json.str "x"), ("b", Json.obj [("d", Json.num 1)])] "a" ≠
          some (Json.obj t0)) →
      getField (mergePatch [("a", Json.str "x"), ("b", Json.obj [("d", Json.num 1)])]
        [("a", Json.null), ("b", Json.obj [("c", Json.num 2)])]) "a" = some (Json.str "z")) ∧
    (getItemRows [] (⟨"tbl", ⟨"id", "p"⟩, none, false, Json.null, []⟩ : TableConfig).rangeKey.isSome
        "x" "" = none →
      (handlePatchItem ⟨"tbl", ⟨"id", "p"⟩, none, false, Json.null, []⟩ (fun _ => none) [] "x" ""
          [("a", Json.null), ("b", Json.obj [("c", Json.num 2)])]).2 = [] ∧
      (docKeysOk [("a", Json.null), ("b", Json.obj [("c", Json.num 2)])] = true →
        bodyKeyMatch [("a", Json.null), ("b", Json.obj [("c", Json.num 2)])]
          (⟨"tbl", ⟨"id", "p"⟩, none, false, Json.null, []⟩ : TableConfig).primaryKey.field "x" = true →
        ((⟨"tbl", ⟨"id", "p"⟩, none, false, Json.null, []⟩ : TableConfig).rangeKey.isSome = true →
          bodyKeyMatch [("a", Json.null), ("b", Json.obj [("c", Json.num 2)])]
            (rkFieldOf ⟨"tbl", ⟨"id", "p"⟩, none, false, Json.null, []⟩)
            (rkValueOf ⟨"tbl", ⟨"id", "p"⟩, none, false, Json.null, []⟩ "") = true) →
        handlePatchItem ⟨"tbl", ⟨"id", "p"⟩, none, false, Json.null, []⟩ (fun _ => none) [] "x" ""
            [("a", Json.null), ("b", Json.obj [("c", Json.num 2)])] =
          (Resp.notFound "item not found", [])))) :=
  ⟨by decide,
    c4_merge_patch_semantics [("a", Json.str "x"), ("b", Json.obj [("d", Json.num 1)])]
      [("a", Json.null), ("b", Json.obj [("c", Json.num 2)])] "a" (Json.str "z")
      [("c", Json.num 2)] [("d", Json.num 1)]
      ⟨"tbl", ⟨"id", "p"⟩, none, false, Json.null, []⟩ (fun _ => none) [] "x" "" (by decide)⟩

/-! ### Put / get round trip -/

theorem find?_upsert_data (p q : Row → Bool) (d : Doc) (snap : List Row)
    (hpq : ∀ r, p r = q r)
    (hq : ∀ pk0 rk0 dd, q ⟨pk0, rk0, dd⟩ = q ⟨pk0, rk0, d⟩)
    (hany : snap.any p = true) :
    ∃ r0, (snap.map (fun r => if p r then (⟨r.pk, r.rk, d⟩ : Row) else r)).find? q =
      some r0 ∧ r0.data = d := by
  induction snap with
  | nil => simp at hany
  | cons a tail ih =>
    by_cases pa : p a = true
    · have hqa : q a = true := by rw [← hpq]; exact pa
      have hpa2 : q (⟨a.pk, a.rk, d⟩ : Row) = true := by
        rw [hq a.pk a.rk d, ← hq a.pk a.rk a.data]
        exact hqa
      refine ⟨⟨a.pk, a.rk, d⟩, ?_, rfl⟩
      rw [List.map_cons, if_pos pa, List.find?_cons_of_pos _ hpa2]
    · have hany2 : tail.any p = true := by
        rcases List.any_eq_true.mp hany with ⟨x, hx, hpx⟩
        rcases List.mem_cons.mp hx with hxa | hxt
        · rw [hxa] at hpx; exact absurd hpx pa
        · exact List.any_eq_true.mpr ⟨x, hxt, hpx⟩
      obtain ⟨r0, hfind, hdata⟩ := ih hany2
      refine ⟨r0, ?_, hdata⟩
      have hqa : ¬q a = true := by rw [← hpq]; exact pa
      rw [List.map_cons, if_neg pa, List.find?_cons_of_neg _ hqa]
      exact hfind

theorem getItemRows_putItemRows (snap : List Row) (hasRK : Bool) (pk rk : String)
    (d : Doc) :
    getItemRows (putItemRows snap hasRK pk rk d) hasRK pk rk = some d := by
  unfold putItemRows
  dsimp only
  have hpq : ∀ r : Row,
      (decide (r.pk = pk) && (!hasRK || decide (r.rk = (if hasRK then rk else "")))) =
      (decide (r.pk = pk) && (!hasRK || decide (r.rk = rk))) := by
    intro r
    cases hasRK <;> simp
  have hq : ∀ pk0 rk0 (dd : Doc),
      (decide (Row.pk ⟨pk0, rk0, dd⟩ = pk) && (!hasRK || decide (Row.rk ⟨pk0, rk0, dd⟩ = rk))) =
      (decide (Row.pk ⟨pk0, rk0, d⟩ = pk) && (!hasRK || decide (Row.rk ⟨pk0, rk0, d⟩ = rk))) := by
    intro pk0 rk0 dd
    rfl
  by_cases hany : (snap.any (fun r =>
      r.pk = pk && (!hasRK || r.rk = (if hasRK then rk else "")))) = true
  · rw [if_pos hany]
    obtain ⟨r0, hfind, hdata⟩ := find?_upsert_data _ _ d snap hpq hq hany
    unfold getItemRows
    rw [hfind]
    show some r0.data = some d
    rw [hdata]
  · rw [if_neg hany]
    unfold getItemRows
    have hnone : snap.find? (fun r => r.pk = pk && (!hasRK || r.rk = rk)) = none := by
      rw [List.find?_eq_none]
      intro x hx hpx
      refine hany (List.any_of_mem hx ?_)
      rw [hpq]
      exact hpx
    have hnew : (fun (r : Row) => r.pk = pk && (!hasRK || r.rk = rk))
        (⟨pk, if hasRK then rk else "", d⟩ : Row) = true := by
      cases hasRK <;> simp
    rw [List.find?_append, hnone]
    have hone : List.find? (fun r => decide (r.pk = pk) && (!hasRK || decide (r.rk = rk)))
        [(⟨pk, if hasRK then rk else "", d⟩ : Row)] =
        some ⟨pk, if hasRK then rk else "", d⟩ :=
      List.find?_cons_of_pos _ hnew
    rw [hone]
    rfl

theorem applyProjection_empty (t : TableConfig) (d : Doc) :
    applyProjection "" t d = d := by
  unfold applyProjection parseFieldsParam
  simp

theorem getField_injectKeys_other2 (d : Doc) (pkF pkV rkF rkV k : String)
    (h1 : k ≠ pkF) (h2 : rkF ≠ "" → k ≠ rkF) :
    getField (injectKeys d pkF pkV rkF rkV) k = getField d k := by
  unfold injectKeys
  by_cases hrk : rkF = ""
  · simp only [hrk]
    rw [if_neg (by simp)]
    exact getField_setField_other _ _ _ _ h1
  · rw [if_pos (by simpa using hrk), getField_setField_other _ _ _ _ (h2 hrk),
      getField_setField_other _ _ _ _ h1]

theorem handlePutItem_ok_state (t : TableConfig) (validator : Doc → Option String)
    (snap : List Row) (pk rk : String) (doc : Doc) (body : Doc)
    (hok : (handlePutItem t validator snap pk rk doc).1 = Resp.ok body) :
    (handlePutItem t validator snap pk rk doc).2 =
      putItemRows snap t.rangeKey.isSome pk rk
        (stripKeys doc t.primaryKey.field (rkFieldOf t)) := by
  unfold handlePutItem at hok ⊢
  dsimp only at hok ⊢
  by_cases h1 : docKeysOk doc = false
  · rw [if_pos h1] at hok; exact absurd hok (by simp)
  · rw [if_neg h1] at hok ⊢
    by_cases h2 : bodyKeyMatch doc t.primaryKey.field pk = false
    · rw [if_pos h2] at hok; exact absurd hok (by simp)
    · rw [if_neg h2] at hok ⊢
      by_cases h3 : (t.rangeKey.isSome &&
          decide (bodyKeyMatch doc (rkFieldOf t) (rkValueOf t rk) = false)) = true
      · rw [if_pos h3] at hok; exact absurd hok (by simp)
      · rw [if_neg h3] at hok ⊢
        cases hval : validator doc with
        | some msg => rw [hval] at hok; exact absurd hok (by simp)
        | none => rfl

/-- Claim C3: for any document accepted by put at key K, a subsequent get of
K with no field selection returns exactly that document with the table's key
fields present under their configured names at the URL-addressed values, and
nothing else (the formula characterizes every field of the response).  Needs
the config invariant pkField != rkField (enforced by config.Validate). -/
theorem c3_put_get_round_trip (t : TableConfig) (validator : Doc → Option String)
    (snap : List Row) (pk rk : String) (doc : Doc)
    (hkey : rkFieldOf t ≠ "" → t.primaryKey.field ≠ rkFieldOf t)
    (hok : ∃ body, (handlePutItem t validator snap pk rk doc).1 = Resp.ok body) :
    ∃ stored, handleGetItem t (handlePutItem t validator snap pk rk doc).2 pk rk "" =
        Resp.ok stored ∧
      ∀ k, getField stored k =
        if k = t.primaryKey.field then some (Json.str pk)
        else if rkFieldOf t ≠ "" ∧ k = rkFieldOf t then some (Json.str rk)
        else getField doc k := by
  obtain ⟨body, hok⟩ := hok
  rw [handlePutItem_ok_state t validator snap pk rk doc body hok]
  unfold handleGetItem
  rw [getItemRows_putItemRows]
  refine ⟨_, rfl, fun k => ?_⟩
  rw [applyProjection_empty]
  by_cases hpk : k = t.primaryKey.field
  · rw [if_pos hpk, hpk]
    exact getField_injectKeys_pk _ _ _ _ _ hkey
  · rw [if_neg hpk]
    by_cases hrk : rkFieldOf t ≠ "" ∧ k = rkFieldOf t
    · rw [if_pos hrk, hrk.2, getField_injectKeys_rk _ _ _ _ _ hrk.1,
        rkValueOf_of_isSome t rk (rangeKey_isSome_of_rkField_ne t hrk.1)]
    · rw [if_neg hrk,
        getField_injectKeys_other2 _ _ _ _ _ _ hpk
          (fun hne heq => hrk ⟨hne, heq⟩)]
      exact getField_stripKeys_other doc _ _ k hpk hrk

/-- Witness for C3: put a document on a range-keyed table and read it back. -/
theorem c3_put_get_round_trip_witness :
    (rkFieldOf ⟨"orders", ⟨"orderId", "p"⟩, some ⟨"lineId", "p"⟩, false, Json.null, []⟩ ≠ "" →
      (⟨"orders", ⟨"orderId", "p"⟩, some ⟨"lineId", "p"⟩, false, Json.null, []⟩ :
        TableConfig).primaryKey.field ≠
        rkFieldOf ⟨"orders", ⟨"orderId", "p"⟩, some ⟨"lineId", "p"⟩, false, Json.null, []⟩) ∧
    (∃ body, (handlePutItem ⟨"orders", ⟨"orderId", "p"⟩, some ⟨"lineId", "p"⟩, false, Json.null, []⟩
        (fun _ => none) [] "order1" "line1"
        [("orderId", Json.str "order1"), ("amount", Json.num 42)]).1 = Resp.ok body) ∧
    (∃ stored, handleGetItem ⟨"orders", ⟨"orderId", "p"⟩, some ⟨"lineId", "p"⟩, false, Json.null, []⟩
        (handlePutItem ⟨"orders", ⟨"orderId", "p"⟩, some ⟨"lineId", "p"⟩, false, Json.null, []⟩
          (fun _ => none) [] "order1" "line1"
          [("orderId", Json.str "order1"), ("amount", Json.num 42)]).2 "order1" "line1" "" =
        Resp.ok stored ∧
      ∀ k, getField stored k =
        if k = (⟨"orders", ⟨"orderId", "p"⟩, some ⟨"lineId", "p"⟩, false, Json.null, []⟩ :
            TableConfig).primaryKey.field then some (Json.str "order1")
        else if rkFieldOf ⟨"orders", ⟨"orderId", "p"⟩, some ⟨"lineId", "p"⟩, false, Json.null, []⟩ ≠ "" ∧
            k = rkFieldOf ⟨"orders", ⟨"orderId", "p"⟩, some ⟨"lineId", "p"⟩, false, Json.null, []⟩ then
          some (Json.str "line1")
        else getField [("orderId", Json.str "order1"), ("amount", Json.num 42)] k) := by
  have hput : (handlePutItem ⟨"orders", ⟨"orderId", "p"⟩, some ⟨"lineId", "p"⟩, false, Json.null, []⟩
      (fun _ => none) [] "order1" "line1"
      [("orderId", Json.str "order1"), ("amount", Json.num 42)]).1 =
      Resp.ok [("amount", Json.num 42), ("orderId", Json.str "order1"),
        ("lineId", Json.str "line1")] := by
    simp [handlePutItem, docKeysOk, objKeysOk, jsonKeysOk, jsonKeyOk, isKeyStartChar,
      isKeyRestChar, bodyKeyMatch, getField, stripKeys, injectKeys, setField, rkFieldOf,
      rkValueOf, List.find?]
  exact ⟨by decide, ⟨_, hput⟩,
    c3_put_get_round_trip ⟨"orders", ⟨"orderId", "p"⟩, some ⟨"lineId", "p"⟩, false, Json.null, []⟩
      (fun _ => none) [] "order1" "line1"
      [("orderId", Json.str "order1"), ("amount", Json.num 42)] (by decide) ⟨_, hput⟩⟩

/-! ### Validation failure leaves storage untouched -/

theorem handlePutItem_validator_fails (t : TableConfig) (validator : Doc → Option String)
    (snap : List Row) (pk rk : String) (doc : Doc) (viol : String)
    (hval : validator doc = some viol) :
    ∃ m, handlePutItem t validator snap pk rk doc = (Resp.badRequest m, snap) := by
  unfold handlePutItem
  dsimp only
  by_cases h1 : docKeysOk doc = false
  · rw [if_pos h1]; exact ⟨_, rfl⟩
  · rw [if_neg h1]
    by_cases h2 : bodyKeyMatch doc t.primaryKey.field pk = false
    · rw [if_pos h2]; exact ⟨_, rfl⟩
    · rw [if_neg h2]
      by_cases h3 : (t.rangeKey.isSome &&
          decide (bodyKeyMatch doc (rkFieldOf t) (rkValueOf t rk) = false)) = true
      · rw [if_pos h3]; exact ⟨_, rfl⟩
      · rw [if_neg h3, hval]; exact ⟨_, rfl⟩

theorem handlePatchItem_validator_fails (t : TableConfig)
    (validator : Doc → Option String) (snap : List Row) (pk rk : String)
    (patch ex : Doc) (viol : String)
    (hex : getItemRows snap t.rangeKey.isSome pk rk = some ex)
    (hval : validator (injectKeys (mergePatch ex patch) t.primaryKey.field pk
      (rkFieldOf t) (rkValueOf t rk)) = some viol) :
    ∃ m, handlePatchItem t validator snap pk rk patch = (Resp.badRequest m, snap) := by
  unfold handlePatchItem
  dsimp only
  by_cases h1 : docKeysOk patch = false
  · rw [if_pos h1]; exact ⟨_, rfl⟩
  · rw [if_neg h1]
    by_cases h2 : bodyKeyMatch patch t.primaryKey.field pk = false
    · rw [if_pos h2]; exact ⟨_, rfl⟩
    · rw [if_neg h2]
      by_cases h3 : (t.rangeKey.isSome &&
          decide (bodyKeyMatch patch (rkFieldOf t) (rkValueOf t rk) = false)) = true
      · rw [if_pos h3]; exact ⟨_, rfl⟩
      · rw [if_neg h3, hex]
        dsimp only
        rw [hval]
        exact ⟨_, rfl⟩

/-- Claim C8: a put whose document fails the external schema validator, or a
patch whose fully merged document (with keys injected) fails it, never
touches storage — the resulting store state is the original snapshot and the
response is never a success; when the request passes the preceding JSON-key
and body/URL-key checks, the response is exactly the validation failure
carrying the validator's violation detail. -/
theorem c8_validation_failure_no_write (t : TableConfig)
    (validator : Doc → Option String) (snap : List Row) (pk rk : String)
    (doc patch ex : Doc) (viol viol2 : String) :
    (validator doc = some viol →
      (handlePutItem t validator snap pk rk doc).2 = snap ∧
      (∀ body, (handlePutItem t validator snap pk rk doc).1 ≠ Resp.ok body) ∧
      (docKeysOk doc = true → bodyKeyMatch doc t.primaryKey.field pk = true →
        (t.rangeKey.isSome = true →
          bodyKeyMatch doc (rkFieldOf t) (rkValueOf t rk) = true) →
        (handlePutItem t validator snap pk rk doc).1 = Resp.badRequest viol)) ∧
    (getItemRows snap t.rangeKey.isSome pk rk = some ex →
      validator (injectKeys (mergePatch ex patch) t.primaryKey.field pk
        (rkFieldOf t) (rkValueOf t rk)) = some viol2 →
      (handlePatchItem t validator snap pk rk patch).2 = snap ∧
      (∀ body, (handlePatchItem t validator snap pk rk patch).1 ≠ Resp.ok body) ∧
      (docKeysOk patch = true → bodyKeyMatch patch t.primaryKey.field pk = true →
        (t.rangeKey.isSome = true →
          bodyKeyMatch patch (rkFieldOf t) (rkValueOf t rk) = true) →
        (handlePatchItem t validator snap pk rk patch).1 = Resp.badRequest viol2)) := by
  constructor
  · intro hval
    obtain ⟨m, hm⟩ := handlePutItem_validator_fails t validator snap pk rk doc viol hval
    refine ⟨by rw [hm], fun body hb => ?_, fun hki hbk hrk => ?_⟩
    · rw [hm] at hb
      exact Resp.noConfusion hb
    · unfold handlePutItem
      dsimp only
      rw [if_neg (by simp [hki]), if_neg (by simp [hbk]), if_neg ?hneg, hval]
      case hneg =>
        intro hand
        have h2 : t.rangeKey.isSome = true ∧
            bodyKeyMatch doc (rkFieldOf t) (rkValueOf t rk) = false := by
          simpa using hand
        have hb := h2.2
        rw [hrk h2.1] at hb
        exact Bool.noConfusion hb
  · intro hex hval
    obtain ⟨m, hm⟩ :=
      handlePatchItem_validator_fails t validator snap pk rk patch ex viol2 hex hval
    refine ⟨by rw [hm], fun body hb => ?_, fun hki hbk hrk => ?_⟩
    · rw [hm] at hb
      exact Resp.noConfusion hb
    · unfold handlePatchItem
      dsimp only
      rw [if_neg (by simp [hki]), if_neg (by simp [hbk]), if_neg ?hneg2, hex]
      case hneg2 =>
        intro hand
        have h2 : t.rangeKey.isSome = true ∧
            bodyKeyMatch patch (rkFieldOf t) (rkValueOf t rk) = false := by
          simpa using hand
        have hb := h2.2
        rw [hrk h2.1] at hb
        exact Bool.noConfusion hb
      dsimp only
      rw [hval]

/-- Witness for C8 with a validator that rejects everything, over a snapshot
that holds the patched item: every hypothesis of the claim theorem is
discharged at this input and all its conclusions are instantiated. -/
theorem c8_validation_failure_no_write_witness :
    ((fun _ => some "violation" : Doc → Option String) [("name", Json.str "x")] =
        some "violation") ∧
    (getItemRows [⟨"A", "", [("e", Json.num 1)]⟩]
        (⟨"tbl", ⟨"id", "p"⟩, none, false, Json.null, []⟩ : TableConfig).rangeKey.isSome
        "A" "" = some [("e", Json.num 1)]) ∧
    (docKeysOk [("name", Json.str "x")] = true) ∧
    ((handlePutItem ⟨"tbl", ⟨"id", "p"⟩, none, false, Json.null, []⟩
        (fun _ => some "violation") [⟨"A", "", [("e", Json.num 1)]⟩] "A" ""
        [("name", Json.str "x")]).2 = [⟨"A", "", [("e", Json.num 1)]⟩]) ∧
    (∀ body, (handlePutItem ⟨"tbl", ⟨"id", "p"⟩, none, false, Json.null, []⟩
        (fun _ => some "violation") [⟨"A", "", [("e", Json.num 1)]⟩] "A" ""
        [("name", Json.str "x")]).1 ≠ Resp.ok body) ∧
    ((handlePutItem ⟨"tbl", ⟨"id", "p"⟩, none, false, Json.null, []⟩
        (fun _ => some "violation") [⟨"A", "", [("e", Json.num 1)]⟩] "A" ""
        [("name", Json.str "x")]).1 = Resp.badRequest "violation") ∧
    ((handlePatchItem ⟨"tbl", ⟨"id", "p"⟩, none, false, Json.null, []⟩
        (fun _ => some "violation") [⟨"A", "", [("e", Json.num 1)]⟩] "A" ""
        [("name", Json.str "x")]).2 = [⟨"A", "", [("e", Json.num 1)]⟩]) ∧
    (∀ body, (handlePatchItem ⟨"tbl", ⟨"id", "p"⟩, none, false, Json.null, []⟩
        (fun _ => some "violation") [⟨"A", "", [("e", Json.num 1)]⟩] "A" ""
        [("name", Json.str "x")]).1 ≠ Resp.ok body) ∧
    ((handlePatchItem ⟨"tbl", ⟨"id", "p"⟩, none, false, Json.null, []⟩
        (fun _ => some "violation") [⟨"A", "", [("e", Json.num 1)]⟩] "A" ""
        [("name", Json.str "x")]).1 = Resp.badRequest "violation") := by
  have hkeys : docKeysOk [("name", Json.str "x")] = true := by
    simp [docKeysOk, objKeysOk, jsonKeysOk, jsonKeyOk, isKeyStartChar, isKeyRestChar]
  have hex : getItemRows [(⟨"A", "", [("e", Json.num 1)]⟩ : Row)]
      (⟨"tbl", ⟨"id", "p"⟩, none, false, Json.null, []⟩ : TableConfig).rangeKey.isSome
      "A" "" = some [("e", Json.num 1)] := by decide
  have hput := (c8_validation_failure_no_write
    ⟨"tbl", ⟨"id", "p"⟩, none, false, Json.null, []⟩ (fun _ => some "violation")
    [⟨"A", "", [("e", Json.num 1)]⟩] "A" "" [("name", Json.str "x")]
    [("name", Json.str "x")] [("e", Json.num 1)] "violation" "violation").1 rfl
  have hpatch := (c8_validation_failure_no_write
    ⟨"tbl", ⟨"id", "p"⟩, none, false, Json.null, []⟩ (fun _ => some "violation")
    [⟨"A", "", [("e", Json.num 1)]⟩] "A" "" [("name", Json.str "x")]
    [("name", Json.str "x")] [("e", Json.num 1)] "violation" "violation").2 hex rfl
  refine ⟨rfl, hex, hkeys, hput.1, hput.2.1,
    hput.2.2 hkeys (by decide) (fun hh => by exact absurd hh (by decide)),
    hpatch.1, hpatch.2.1,
    hpatch.2.2 hkeys (by decide) (fun hh => by exact absurd hh (by decide))⟩

/-! ### Reconciliation properties -/

/-- Claim C7: a dry run commits nothing: whatever the configuration and
whatever happens inside the run (success or error at any step), the
committed database state equals the original — tables, indexes, metadata
entries and the stored fingerprint included. -/
theorem c7_dry_run_commits_nothing (db : DBState) (tables : List TableConfig)
    (cleanup : Bool) :
    runMigrate db tables ⟨cleanup, true⟩ = db := by
  unfold runMigrate migrate
  dsimp only
  cases h : reconcileTables { db with metaTableExists := true } tables ⟨cleanup, true⟩ with
  | error e => rfl
  | ok tx1 => rfl

/-- A configured table whose recorded `_meta` key fields differ from the
current configuration. -/
def keyMismatch (db : DBState) (t : TableConfig) : Prop :=
  metaLookup db t.name ≠ none ∧ metaLookup db t.name ≠ some (mcOf t)

theorem foldl_meta_const {α : Type} (f : DBState → α → DBState)
    (hf : ∀ s a, (f s a).meta = s.meta) (l : List α) :
    ∀ s : DBState, (l.foldl f s).meta = s.meta := by
  induction l with
  | nil => intro s; rfl
  | cons a rest ih =>
    intro s
    rw [List.foldl_cons, ih, hf]

theorem createIndexStep_meta (t : TableConfig) (opts : MigrateOptions)
    (s : DBState) (idx : IndexConfig) :
    (createIndexStep t opts s idx).meta = s.meta := by
  unfold createIndexStep
  dsimp only
  split
  · rfl
  · split <;> rfl

theorem createTableState_meta (st : DBState) (t : TableConfig) :
    (createTableState st t).meta = st.meta := by
  unfold createTableState
  split <;> rfl

theorem reconcileIndexes_meta (st : DBState) (t : TableConfig)
    (opts : MigrateOptions) :
    (reconcileIndexes st t opts).meta = st.meta := by
  unfold reconcileIndexes
  dsimp only
  have hfold := foldl_meta_const (createIndexStep t opts)
    (createIndexStep_meta t opts) t.indexes st
  split
  · split
    · exact hfold
    · exact hfold
  · exact hfold

theorem metaLookup_append_keeps (m l : List (String × MetaConfig)) (n : String)
    (c : MetaConfig)
    (h : (m.find? (fun e => e.1 = n)).map (fun e => e.2) = some c) :
    (((m ++ l).find? (fun e => e.1 = n)).map (fun e => e.2)) = some c := by
  rw [List.find?_append]
  cases hf : m.find? (fun e => e.1 = n) with
  | none => rw [hf] at h; simp at h
  | some e =>
    rw [hf] at h
    exact h

theorem reconcileTable_ok_meta_preserved (st : DBState) (t : TableConfig)
    (opts : MigrateOptions) (st2 : DBState)
    (hok : reconcileTable st t opts = Except.ok st2) :
    ∀ n c, metaLookup st n = some c → metaLookup st2 n = some c := by
  intro n c hn
  unfold reconcileTable at hok
  cases hlook : metaLookup st t.name with
  | none =>
    rw [hlook] at hok
    dsimp only at hok
    injection hok with hst2
    subst hst2
    unfold metaLookup
    rw [reconcileIndexes_meta]
    by_cases hdry : opts.dryRun = true
    · rw [if_pos hdry, if_pos hdry]
      exact hn
    · rw [if_neg hdry, if_neg hdry]
      dsimp only
      rw [createTableState_meta]
      exact metaLookup_append_keeps st.meta _ n c hn
  | some ex =>
    rw [hlook] at hok
    dsimp only at hok
    by_cases hpk : ex.primaryKeyField ≠ (mcOf t).primaryKeyField
    · rw [if_pos hpk] at hok
      exact Except.noConfusion hok
    · rw [if_neg hpk] at hok
      by_cases hrk : ex.rangeKeyField ≠ (mcOf t).rangeKeyField
      · rw [if_pos hrk] at hok
        exact Except.noConfusion hok
      · rw [if_neg hrk] at hok
        injection hok with hst2
        subst hst2
        unfold metaLookup
        rw [reconcileIndexes_meta]
        exact hn

theorem reconcileTables_mismatch_error (db : DBState) (tables : List TableConfig)
    (opts : MigrateOptions) :
    ∀ (st : DBState), (∀ n c, metaLookup db n = some c → metaLookup st n = some c) →
    (∃ t ∈ tables, keyMismatch db t) →
    ∃ e, reconcileTables st tables opts = Except.error e := by
  induction tables with
  | nil =>
    intro st hinv hmem
    obtain ⟨t, ht, _⟩ := hmem
    exact absurd ht (List.not_mem_nil t)
  | cons t rest ih =>
    intro st hinv hmem
    obtain ⟨t0, ht0, hmis⟩ := hmem
    rcases List.mem_cons.mp ht0 with heq | hmem2
    · subst heq
      cases hlook : metaLookup db t0.name with
      | none => exact absurd hlook hmis.1
      | some ex =>
        have hst : metaLookup st t0.name = some ex := hinv _ _ hlook
        have hexne : ex ≠ mcOf t0 := by
          intro he
          apply hmis.2
          rw [hlook, he]
        unfold reconcileTables reconcileTable
        rw [hst]
        dsimp only
        by_cases hpk : ex.primaryKeyField ≠ (mcOf t0).primaryKeyField
        · rw [if_pos hpk]
          exact ⟨_, rfl⟩
        · rw [if_neg hpk]
          have hpk2 : ex.primaryKeyField = (mcOf t0).primaryKeyField := not_not.mp hpk
          have hrk : ex.rangeKeyField ≠ (mcOf t0).rangeKeyField := by
            intro hr
            apply hexne
            obtain ⟨a, b⟩ := ex
            rw [show a = (mcOf t0).primaryKeyField from hpk2,
              show b = (mcOf t0).rangeKeyField from hr]
          rw [if_pos hrk]
          exact ⟨_, rfl⟩
    · cases hrec : reconcileTable st t opts with
      | error e =>
        unfold reconcileTables
        rw [hrec]
        exact ⟨_, rfl⟩
      | ok st1 =>
        unfold reconcileTables
        rw [hrec]
        exact ih st1
          (fun n c h => reconcileTable_ok_meta_preserved st t opts st1 hrec n c (hinv n c h))
          ⟨t0, hmem2, hmis⟩

/-- Claim C5: reconciling a configuration that changes the recorded primary
or range key field name of an existing table fails with a key-identity
error, and the committed database state — physical tables, indexes, `_meta`
entries and the stored fingerprint — is exactly the original (the whole run
is one transaction that rolls back on error). -/
theorem c5_key_identity_immutable (db : DBState) (tables : List TableConfig)
    (opts : MigrateOptions)
    (hmis : ∃ t ∈ tables, keyMismatch db t) :
    (∃ e, migrate db tables opts = Except.error e) ∧
    runMigrate db tables opts = db := by
  have hinv : ∀ n c, metaLookup db n = some c →
      metaLookup { db with metaTableExists := true } n = some c := fun n c h => h
  obtain ⟨e, he⟩ := reconcileTables_mismatch_error db tables opts _ hinv hmis
  constructor
  · refine ⟨e, ?_⟩
    unfold migrate
    dsimp only
    rw [he]
  · unfold runMigrate migrate
    dsimp only
    rw [he]

/-- Witness for C5: `_meta` records pk field "itemId" for table "items", the
new configuration says "id"; the run errors and commits nothing. -/
theorem c5_key_identity_immutable_witness :
    (∃ t ∈ [(⟨"items", ⟨"id", "p"⟩, none, false, Json.null, []⟩ : TableConfig)],
      keyMismatch ⟨true, [("items", ⟨"itemId", ""⟩)], none, ["items"], []⟩ t) ∧
    ((∃ e, migrate ⟨true, [("items", ⟨"itemId", ""⟩)], none, ["items"], []⟩
        [⟨"items", ⟨"id", "p"⟩, none, false, Json.null, []⟩] ⟨false, false⟩ =
        Except.error e) ∧
      runMigrate ⟨true, [("items", ⟨"itemId", ""⟩)], none, ["items"], []⟩
        [⟨"items", ⟨"id", "p"⟩, none, false, Json.null, []⟩] ⟨false, false⟩ =
        ⟨true, [("items", ⟨"itemId", ""⟩)], none, ["items"], []⟩) :=
  ⟨⟨⟨"items", ⟨"id", "p"⟩, none, false, Json.null, []⟩, by decide, by decide, by decide⟩,
    c5_key_identity_immutable ⟨true, [("items", ⟨"itemId", ""⟩)], none, ["items"], []⟩
      [⟨"items", ⟨"id", "p"⟩, none, false, Json.null, []⟩] ⟨false, false⟩
      ⟨⟨"items", ⟨"id", "p"⟩, none, false, Json.null, []⟩, by decide, by decide, by decide⟩⟩

/-! ### C6: the fingerprint depends only on structure -/

/-- The structural extraction of an index depends only on its
structure-affecting attributes. -/
theorem minimalIndexOf_congr (i j : IndexConfig) (h : indexStructEq i j) :
    minimalIndexOf i = minimalIndexOf j := by
  obtain ⟨h1, h2, h3⟩ := h
  unfold minimalIndexOf
  rw [h1, h2]
  have hmk : ∀ (o : Option KeyConfig), o.map (fun k => (⟨k.field⟩ : MinimalKey)) =
      (o.map KeyConfig.field).map (fun f => (⟨f⟩ : MinimalKey)) := by
    intro o; cases o <;> rfl
  rw [hmk, hmk, h3]

/-- Mapping a function that is constant on a relation over `Forall₂`-related
lists yields equal maps. -/
theorem forall₂_map_eq {α β : Type} (f : α → β) (R : α → α → Prop)
    (hf : ∀ a b, R a b → f a = f b) :
    ∀ {l₁ l₂ : List α}, List.Forall₂ R l₁ l₂ → l₁.map f = l₂.map f := by
  intro l₁ l₂ h
  induction h with
  | nil => rfl
  | cons hab _ ih => simp only [List.map_cons, hf _ _ hab, ih]

/-- An insertion sort keyed by a string-valued name is a function of the
multiset alone whenever the names are distinct: two permuted inputs with
nodup keys sort to the same list. -/
theorem insertionSort_key_nodup_congr {α : Type} (key : α → String) (r : α → α → Prop)
    [DecidableRel r] (hr : ∀ a b, r a b ↔ key a ≤ key b)
    (l₁ l₂ : List α) (hp : l₁.Perm l₂) (hnd : (l₁.map key).Nodup) :
    List.insertionSort r l₁ = List.insertionSort r l₂ := by
  haveI : IsTotal α r := ⟨fun a b => by rw [hr, hr]; exact le_total _ _⟩
  haveI : IsTrans α r := ⟨fun a b c hab hbc => by
    rw [hr] at hab hbc ⊢; exact le_trans hab hbc⟩
  have hs₁ := List.sorted_insertionSort r l₁
  have hs₂ := List.sorted_insertionSort r l₂
  have hperm : (List.insertionSort r l₁).Perm (List.insertionSort r l₂) :=
    (List.perm_insertionSort r l₁).trans (hp.trans (List.perm_insertionSort r l₂).symm)
  have hnd₁ : ((List.insertionSort r l₁).map key).Nodup :=
    (((List.perm_insertionSort r l₁).map key).nodup_iff).mpr hnd
  have hnd₂ : ((List.insertionSort r l₂).map key).Nodup :=
    ((hperm.map key).nodup_iff).mp hnd₁
  have hne₁ : (List.insertionSort r l₁).Pairwise (fun a b => key a ≠ key b) :=
    List.pairwise_map.mp hnd₁
  have hne₂ : (List.insertionSort r l₂).Pairwise (fun a b => key a ≠ key b) :=
    List.pairwise_map.mp hnd₂
  have hs₁' : (List.insertionSort r l₁).Sorted (fun a b => key a < key b) :=
    (hs₁.and hne₁).imp (fun hab => lt_of_le_of_ne ((hr _ _).mp hab.1) hab.2)
  have hs₂' : (List.insertionSort r l₂).Sorted (fun a b => key a < key b) :=
    (hs₂.and hne₂).imp (fun hab => lt_of_le_of_ne ((hr _ _).mp hab.1) hab.2)
  haveI : IsAntisymm α (fun a b => key a < key b) :=
    ⟨fun a b h1 h2 => absurd (lt_trans h1 h2) (lt_irrefl _)⟩
  exact List.eq_of_perm_of_sorted hperm hs₁' hs₂'

/-- The per-table minimal structure (indexes sorted by name) depends only on
the structure-affecting attributes, provided the index names are distinct. -/
theorem minimalTableSorted_congr (a b : TableConfig) (h : tableStructEq a b)
    (hnd : (a.indexes.map IndexConfig.name).Nodup) :
    minimalTableSorted a = minimalTableSorted b := by
  obtain ⟨h1, h2, h3, idx2, hperm, hfa⟩ := h
  have hmapeq : a.indexes.map minimalIndexOf = idx2.map minimalIndexOf :=
    forall₂_map_eq minimalIndexOf indexStructEq minimalIndexOf_congr hfa
  have hpermMin : (a.indexes.map minimalIndexOf).Perm (b.indexes.map minimalIndexOf) :=
    hmapeq ▸ (hperm.map minimalIndexOf).symm
  have hndMin : ((a.indexes.map minimalIndexOf).map MinimalIndex.name).Nodup := by
    rw [List.map_map]
    exact hnd
  have hsort : List.insertionSort nameLeMinIdx (a.indexes.map minimalIndexOf) =
      List.insertionSort nameLeMinIdx (b.indexes.map minimalIndexOf) :=
    insertionSort_key_nodup_congr MinimalIndex.name nameLeMinIdx
      (fun _ _ => Iff.rfl) _ _ hpermMin hndMin
  unfold minimalTableSorted minimalTableRaw
  dsimp only
  rw [h1, h2, hsort]
  have hmk : ∀ (o : Option KeyConfig), o.map (fun k => (⟨k.field⟩ : MinimalKey)) =
      (o.map KeyConfig.field).map (fun f => (⟨f⟩ : MinimalKey)) := by
    intro o; cases o <;> rfl
  rw [hmk, hmk, h3]

/-- Claim C6: two configurations whose tables and indexes agree on names,
primary key field names, and (optional) range key field names — even if they
differ in validation patterns, document schemas, scan flags, projection
rules, or in the ordering of tables or of indexes within a table — produce
the same minimal structure and the same fingerprint digest.  (Distinct
table and index names, which the config loader enforces, make the per-name
sorts canonical.) -/
theorem c6_fingerprint_ignores_nonstructural (cfgA cfgB : List TableConfig)
    (hmatch : ∃ b2, cfgB.Perm b2 ∧ List.Forall₂ tableStructEq cfgA b2)
    (hndT : (cfgA.map TableConfig.name).Nodup)
    (hndI : ∀ t ∈ cfgA, (t.indexes.map IndexConfig.name).Nodup) :
    buildMinimalTableStructure cfgA = buildMinimalTableStructure cfgB ∧
      tablesConfigHash cfgA = tablesConfigHash cfgB := by
  obtain ⟨b2, hperm, hfa⟩ := hmatch
  have hmapeq : cfgA.map minimalTableSorted = b2.map minimalTableSorted := by
    clear hndT hperm
    induction hfa with
    | nil => rfl
    | cons hab htail ih =>
      rw [List.map_cons, List.map_cons,
        minimalTableSorted_congr _ _ hab (hndI _ (List.mem_cons_self _ _)),
        ih (fun t ht => hndI t (List.mem_cons_of_mem _ ht))]
  have hpermMin : (cfgA.map minimalTableSorted).Perm (cfgB.map minimalTableSorted) :=
    hmapeq ▸ (hperm.map minimalTableSorted).symm
  have hndMin : ((cfgA.map minimalTableSorted).map MinimalTable.name).Nodup := by
    rw [List.map_map]
    exact hndT
  have hsort : List.insertionSort nameLeMinTable (cfgA.map minimalTableSorted) =
      List.insertionSort nameLeMinTable (cfgB.map minimalTableSorted) :=
    insertionSort_key_nodup_congr MinimalTable.name nameLeMinTable
      (fun _ _ => Iff.rfl) _ _ hpermMin hndMin
  have hbuild : buildMinimalTableStructure cfgA = buildMinimalTableStructure cfgB := by
    unfold buildMinimalTableStructure
    rw [hsort]
  exact ⟨hbuild, by unfold tablesConfigHash; rw [hbuild]⟩

/-- Concrete indexes for the C6 witness: the A/B pairs share name and key
fields but differ in patterns, projection, and the scan flag. -/
def c6IdxOneA : IndexConfig := ⟨"byOwner", ⟨"owner", "^o$"⟩, some ⟨"created", "^c$"⟩, none, false⟩

def c6IdxTwoA : IndexConfig := ⟨"byTag", ⟨"tag", "^t$"⟩, none, none, true⟩

def c6IdxOneB : IndexConfig :=
  ⟨"byOwner", ⟨"owner", "other"⟩, some ⟨"created", "x"⟩, some ⟨"KEYS_ONLY", []⟩, true⟩

def c6IdxTwoB : IndexConfig := ⟨"byTag", ⟨"tag", "y"⟩, none, some ⟨"INCLUDE", ["extra"]⟩, false⟩

/-- Concrete tables for the C6 witness: the A/B pairs share names and key
fields but differ in patterns, schema, scan flags, and index order. -/
def c6TableItemsA : TableConfig :=
  ⟨"items", ⟨"id", "^a$"⟩, some ⟨"rk", "^r$"⟩, true, Json.null, [c6IdxTwoA, c6IdxOneA]⟩

def c6TableUsersA : TableConfig := ⟨"users", ⟨"uid", "^u$"⟩, none, false, Json.null, []⟩

def c6TableItemsB : TableConfig :=
  ⟨"items", ⟨"id", "p2"⟩, some ⟨"rk", "p3"⟩, false, Json.bool true, [c6IdxOneB, c6IdxTwoB]⟩

def c6TableUsersB : TableConfig := ⟨"users", ⟨"uid", "p4"⟩, none, true, Json.num 7, []⟩

/-- The two C6 witness configurations, with the tables in different orders. -/
def c6CfgA : List TableConfig := [c6TableUsersA, c6TableItemsA]

/-- The second C6 witness configuration. -/
def c6CfgB : List TableConfig := [c6TableItemsB, c6TableUsersB]

/-- Witness for C6: two concretely different configurations (different key
patterns, schemas, scan flags, projections, table order, and index order)
satisfy the structural-match hypotheses and receive the same minimal
structure and the same fingerprint. -/
theorem c6_fingerprint_ignores_nonstructural_witness :
    (∃ b2, c6CfgB.Perm b2 ∧ List.Forall₂ tableStructEq c6CfgA b2) ∧
    (c6CfgA.map TableConfig.name).Nodup ∧
    (∀ t ∈ c6CfgA, (t.indexes.map IndexConfig.name).Nodup) ∧
    c6CfgA ≠ c6CfgB ∧
    (buildMinimalTableStructure c6CfgA = buildMinimalTableStructure c6CfgB ∧
      tablesConfigHash c6CfgA = tablesConfigHash c6CfgB) := by
  have hmatch : ∃ b2, c6CfgB.Perm b2 ∧ List.Forall₂ tableStructEq c6CfgA b2 :=
    ⟨[c6TableUsersB, c6TableItemsB],
      List.Perm.swap c6TableUsersB c6TableItemsB [],
      List.Forall₂.cons
        ⟨rfl, rfl, rfl, [], List.Perm.nil, List.Forall₂.nil⟩
        (List.Forall₂.cons
          ⟨rfl, rfl, rfl, [c6IdxTwoB, c6IdxOneB],
            List.Perm.swap c6IdxTwoB c6IdxOneB [],
            List.Forall₂.cons (by decide)
              (List.Forall₂.cons (by decide) List.Forall₂.nil)⟩
          List.Forall₂.nil)⟩
  exact ⟨hmatch, by decide, by decide, by decide,
    c6_fingerprint_ignores_nonstructural c6CfgA c6CfgB hmatch (by decide) (by decide)⟩
